import Mathlib

/-!
Verification of the spreadsheet normalization and alert-detection engine
(report.py).  The Python functions are shallowly embedded as Lean
functions over a scalar cell-value type; worksheets are grids of cell
values.  Python exceptions that the code lets escape are modelled with
Except; caught exceptions are folded into the returned value, as the
source does.
-/

namespace Report

/-- Scalar value held by a spreadsheet cell: text, integer, decimal
(modelled as an exact decimal: truncated integer part plus fraction
digits; IEEE float formatting edge cases are out of scope) or empty
(Python None).  Strings are treated as ASCII: character classification
(digits, whitespace, lower-casing) follows the ASCII fragment of
Python's semantics. -/
inductive CellValue where
  | none
  | str (s : String)
  | int (n : Int)
  | dec (ip : Int) (frac : String)
deriving DecidableEq

/-- Character for a decimal digit, as used by Python's str(int). -/
def digitChar (n : Nat) : Char := Char.ofNat (48 + n)

/-- Fuel-driven digit expansion (structural recursion so that concrete
values reduce inside the kernel). -/
def natDigitsF : Nat → Nat → List Char
  | 0, _ => []
  | Nat.succ fuel, n =>
    if n < 10 then [digitChar n] else natDigitsF fuel (n / 10) ++ [digitChar (n % 10)]

/-- Decimal digit list of a natural number, most significant first;
models the digit sequence produced by Python's str().  The fuel n + 1
always suffices because the argument shrinks by a factor of ten. -/
def natDigits (n : Nat) : List Char := natDigitsF (n + 1) n

/-- Python str() of an int. -/
def pyIntRepr (n : Int) : String :=
  (if n < 0 then "-" else "") ++ (⟨natDigits n.natAbs⟩ : String)

/-- Python str() of a scalar cell value. -/
def pyStr : CellValue → String
  | .none => "None"
  | .str s => s
  | .int n => pyIntRepr n
  | .dec ip frac => pyIntRepr ip ++ "." ++ frac

/-- Python truthiness of a scalar cell value. -/
def pyTruthy : CellValue → Bool
  | .none => false
  | .str s => !(s == "")
  | .int n => !(n == 0)
  | .dec ip frac => !(ip == 0) || frac.data.any (fun c => c != '0')

/-- ASCII whitespace recognized by Python's str.strip() and the regex
pattern backslash-s. -/
def isPySpace (c : Char) : Bool :=
  c == ' ' || c == '\t' || c == '\n' || c == '\r' || c == '\x0b' || c == '\x0c'

/-- Python str.strip(): remove leading and trailing whitespace. -/
def stripChars (l : List Char) : List Char :=
  ((l.dropWhile isPySpace).reverse.dropWhile isPySpace).reverse

/-- Python str.strip() on strings. -/
def pyStrip (s : String) : String := ⟨stripChars s.data⟩

/-- Python str.lower() (ASCII fragment). -/
def pyLower (s : String) : String := ⟨s.data.map Char.toLower⟩

/-- Substring test on character lists: Python's `needle in hay`. -/
def strContainsL (needle : List Char) : List Char → Bool
  | [] => needle.isEmpty
  | c :: t => needle.isPrefixOf (c :: t) || strContainsL needle t

/-- Python's `needle in hay` for strings. -/
def strContains (hay needle : String) : Bool := strContainsL needle.data hay.data

/-- Numeric value of a digit string, as Python int() on ASCII digits. -/
def digitsVal (l : List Char) : Nat := l.foldl (fun a c => a * 10 + (c.toNat - 48)) 0

/-- Embeds is_date_format (report.py lines 67-82): strip the string form,
drop everything from the first decimal point on, then require exactly six
digits with year 1900-2100 and month 1-12. -/
def is_date_format (v : CellValue) : Bool :=
  let s0 := stripChars (pyStr v).data
  let s := if s0.contains '.' then s0.takeWhile (fun c => c != '.') else s0
  if s.length = 6 ∧ s.all (fun c => c.isDigit) then
    if 1900 ≤ digitsVal (s.take 4) ∧ digitsVal (s.take 4) ≤ 2100 ∧
        1 ≤ digitsVal (s.drop 4) ∧ digitsVal (s.drop 4) ≤ 12 then true else false
  else false

/-- Models datetime.strptime(s, YYYYMM-format) for the inputs arising in
this program: succeeds exactly on six-digit strings whose last two digits
form a month 01-12 and whose first four digits form a year of at least 1
(year 0 is rejected by datetime).  Returns none where Python raises
ValueError. -/
def strptimeYYYYMM (s : String) : Option (Nat × Nat) :=
  let l := s.data
  if l.length = 6 ∧ l.all (fun c => c.isDigit) then
    let y := digitsVal (l.take 4)
    let m := digitsVal (l.drop 4)
    if 1 ≤ m ∧ m ≤ 12 ∧ 1 ≤ y then some (y, m) else Option.none
  else Option.none

/-- Two-digit zero padding, as strftime does for months and two-digit years. -/
def pad2 (n : Nat) : String :=
  if n < 10 then "0" ++ (⟨natDigits n⟩ : String) else (⟨natDigits n⟩ : String)

/-- strftime year-month output in YYYYMM form (years here are at least
1000, where the year needs no padding). -/
def formatYYYYMM (y m : Nat) : String := (⟨natDigits y⟩ : String) ++ pad2 m

/-- strftime abbreviated month names (C locale). -/
def monthAbbr : Nat → String
  | 1 => "Jan" | 2 => "Feb" | 3 => "Mar" | 4 => "Apr" | 5 => "May" | 6 => "Jun"
  | 7 => "Jul" | 8 => "Aug" | 9 => "Sep" | 10 => "Oct" | 11 => "Nov" | 12 => "Dec"
  | _ => ""

/-- strftime month-year display form, e.g. Mar-24. -/
def formatMonYY (y m : Nat) : String := monthAbbr m ++ "-" ++ pad2 (y % 100)

/-- Embeds convert_date_value (report.py lines 84-105): convert a YYYYMM
value to Mon-YY display form; parse failures return the value unchanged
(the source catches every exception). -/
def convert_date_value (v : CellValue) : CellValue :=
  match v with
  | .none => v
  | .str s =>
    if is_date_format v then
      match strptimeYYYYMM (pyStrip s) with
      | some (y, m) => .str (formatMonYY y m)
      | Option.none => v
    else v
  | .int n =>
    if is_date_format (.int n) then
      match strptimeYYYYMM (pyIntRepr n) with
      | some (y, m) => .str (formatMonYY y m)
      | Option.none => v
    else v
  | .dec ip _ =>
    if is_date_format (.int ip) then
      match strptimeYYYYMM (pyIntRepr ip) with
      | some (y, m) => .str (formatMonYY y m)
      | Option.none => v
    else v

/-- Case-insensitive character comparison (re.IGNORECASE). -/
def eqCI (a b : Char) : Bool := a.toLower == b.toLower

/-- Consume a literal case-insensitively; returns the rest on success. -/
def consumeCI : List Char → List Char → Option (List Char)
  | [], l => some l
  | _ :: _, [] => Option.none
  | c :: cs, x :: xs => if eqCI c x then consumeCI cs xs else Option.none

/-- Attempt to match the tag regex at the start of the list.  The pattern
digits, plus, DPD, spaces, at-sign, spaces, digits, spaces, DOB is
deterministic here: each greedy piece is followed by a literal that its
own character class excludes, so backtracking never helps. -/
def matchTagAt (l : List Char) : Option (Nat × Nat) :=
  let d1 := l.takeWhile (fun c => c.isDigit)
  if d1.isEmpty then Option.none else
  match consumeCI "+DPD".data (l.dropWhile (fun c => c.isDigit)) with
  | Option.none => Option.none
  | some r2 =>
    match consumeCI "@".data (r2.dropWhile isPySpace) with
    | Option.none => Option.none
    | some r4 =>
      let r5 := r4.dropWhile isPySpace
      let d2 := r5.takeWhile (fun c => c.isDigit)
      if d2.isEmpty then Option.none else
      match consumeCI "DOB".data ((r5.dropWhile (fun c => c.isDigit)).dropWhile isPySpace) with
      | Option.none => Option.none
      | some _ => some (digitsVal d1, digitsVal d2)

/-- re.search: try every start position left to right. -/
def searchTag : List Char → Option (Nat × Nat)
  | [] => Option.none
  | c :: t =>
    match matchTagAt (c :: t) with
    | some r => some r
    | Option.none => searchTag t

/-- Embeds parse_tag (report.py lines 34-43). -/
def parse_tag (tag : String) : Option (Nat × Nat) := searchTag tag.data

/-- Embeds calculate_approved_month (report.py lines 45-57).  The Python
truthiness guard `if dpd and dob` admits the match only when both parsed
integers are nonzero.  Except.error models an uncaught exception
(ValueError from strptime, or month subtraction reaching year zero);
Except.ok Option.none models the Python return value None. -/
def calculate_approved_month (run_month tag : String) : Except Unit (Option String) :=
  match parse_tag tag with
  | Option.none => Except.ok Option.none
  | some (dpd, dob) =>
    if dpd ≠ 0 ∧ dob ≠ 0 then
      match strptimeYYYYMM run_month with
      | Option.none => Except.error ()
      | some (y, m) =>
        let monthsBack := dob / dpd + 1
        let t := y * 12 + (m - 1)
        if t < monthsBack + 12 then Except.error ()
        else Except.ok (some (formatYYYYMM ((t - monthsBack) / 12) ((t - monthsBack) % 12 + 1)))
    else Except.ok Option.none

/-- A worksheet's cell grid: openpyxl's ws.cell(row, col).value, total
because openpyxl materializes empty cells on access (value None). -/
def Sheet := Nat → Nat → CellValue

/-- Write one cell value in place. -/
def updateCell (ws : Sheet) (r c : Nat) (v : CellValue) : Sheet :=
  fun r2 c2 => if r2 = r ∧ c2 = c then v else ws r2 c2

/-- One iteration of the target-cell loop of
process_excel_report_specific_cells (report.py lines 247-264): B17 is
overwritten with the PSI validation value when one exists, B14 is
skipped, and any other non-empty target cell is converted in place when
the conversion changes it.  Cells are (row, column) with column B = 2. -/
def targetStep (psi : Option CellValue) (ws : Sheet) (rc : Nat × Nat) : Sheet :=
  if rc = (17, 2) ∧ psi ≠ Option.none then
    updateCell ws 17 2 (psi.getD CellValue.none)
  else if rc = (14, 2) then ws
  else if ws rc.1 rc.2 ≠ CellValue.none then
    if convert_date_value (ws rc.1 rc.2) ≠ ws rc.1 rc.2 then
      updateCell ws rc.1 rc.2 (convert_date_value (ws rc.1 rc.2))
    else ws
  else ws

/-- PSI validation value recorded from B14 (report.py lines 238-243). -/
def step1Psi (ws : Sheet) : Option CellValue :=
  if ws 14 2 ≠ CellValue.none then some (convert_date_value (ws 14 2)) else Option.none

/-- Writing the converted value back to B14 (report.py line 243). -/
def step1Sheet (ws : Sheet) : Sheet :=
  if ws 14 2 ≠ CellValue.none then updateCell ws 14 2 (convert_date_value (ws 14 2)) else ws

/-- The loop over the fixed target cells B7, B14, B15, B16, B17. -/
def step2 (psi : Option CellValue) (ws : Sheet) : Sheet :=
  [(7, 2), (14, 2), (15, 2), (16, 2), (17, 2)].foldl (targetStep psi) ws

/-- Placeholder test used for Overview B15/B18 (report.py lines 269, 276):
cell truthy and its stripped lower-cased text equal to the label. -/
def placeholderVal (x : CellValue) : Bool :=
  pyTruthy x && (pyLower (pyStrip (pyStr x)) == "first production month")

/-- Placeholder test at column B of a row. -/
def placeholderAt (ws : Sheet) (r : Nat) : Bool := placeholderVal (ws r 2)

/-- Vintage placeholder substitution on the Overview sheet
(report.py lines 266-279). -/
def step3 (vintage : Option CellValue) (sheetName : String) (ws : Sheet) : Sheet :=
  if pyLower sheetName = "overview" ∧ vintage ≠ Option.none then
    let vv := vintage.getD CellValue.none
    let ws3 := if placeholderAt ws 15 then updateCell ws 15 2 vv else ws
    if placeholderAt ws3 18 then updateCell ws3 18 2 vv else ws3
  else ws

/-- The per-worksheet body of process_excel_report_specific_cells
(report.py lines 235-279): B14 conversion, the target-cell loop, then
the vintage placeholder substitution.  The vintage value derived from
the Accuracy sheet is a parameter, as is the sheet's name. -/
def processSheet (vintage : Option CellValue) (sheetName : String) (ws : Sheet) : Sheet :=
  step3 vintage sheetName (step2 (step1Psi ws) (step1Sheet ws))

/-- A worksheet together with its openpyxl extent bounds. -/
structure Ws where
  grid : Nat → Nat → CellValue
  maxRow : Nat
  maxCol : Nat

/-- Alert report built by check_for_alerts. -/
structure Alerts where
  has_alerts : Bool
  summary : Option String
  overall_comments : Option String
  alert_details : List String
deriving DecidableEq

/-- Fresh alert report (report.py lines 153-158). -/
def initAlerts : Alerts := ⟨false, Option.none, Option.none, []⟩

/-- Rightward search across the next 4 columns for the first cell that is
truthy with non-blank text; returns its stripped text
(report.py lines 169-172 and 181-184). -/
def firstRight (g : Nat → Nat → CellValue) (r c : Nat) : Option String :=
  [1, 2, 3, 4].findSome? fun off =>
    if pyTruthy (g r (c + off)) && !(pyStrip (pyStr (g r (c + off))) == "") then
      some (pyStrip (pyStr (g r (c + off))))
    else Option.none

/-- Red/yellow detection in an extracted text (report.py lines 175, 187). -/
def redYellow (t : String) : Bool :=
  strContains (pyLower t) "red" || strContains (pyLower t) "yellow"

/-- One cell of the alert scan (report.py lines 164-190): the summary
check and the overall-comments check run in sequence on the same cell. -/
def cellAlertStep (g : Nat → Nat → CellValue) (st : Alerts) (rc : Nat × Nat) : Alerts :=
  if pyTruthy (g rc.1 rc.2) then
    let s := pyLower (pyStrip (pyStr (g rc.1 rc.2)))
    let st1 :=
      if strContains s "summary" && !strContains s "performance" then
        match firstRight g rc.1 rc.2 with
        | some t =>
          if redYellow t then
            { st with
              summary := some t
              has_alerts := true
              alert_details := st.alert_details ++ ["Summary contains alert: " ++ t] }
          else { st with summary := some t }
        | Option.none => st
      else st
    if strContains s "overall" && strContains s "comment" then
      match firstRight g rc.1 rc.2 with
      | some t =>
        if redYellow t then
          { st1 with
            overall_comments := some t
            has_alerts := true
            alert_details := st1.alert_details ++ ["Overall Comments contains alert: " ++ t] }
        else { st1 with overall_comments := some t }
      | Option.none => st1
    else st1
  else st

/-- Scan region of one sheet in the alert scan, row-major.  Python's
range(1, min(50, max_row + 1)) runs rows 1 through min(49, max_row), and
range(1, min(10, max_column + 1)) runs columns 1 through min(9, max_column). -/
def alertCoords (ws : Ws) : List (Nat × Nat) :=
  (List.range' 1 (min 49 ws.maxRow)).flatMap fun r =>
    (List.range' 1 (min 9 ws.maxCol)).map fun c => (r, c)

/-- Embeds check_for_alerts (report.py lines 148-192). -/
def check_for_alerts (wb : List Ws) : Alerts :=
  wb.foldl (fun st ws => (alertCoords ws).foldl (cellAlertStep ws.grid) st) initAlerts

/-- Scan region of the benchmark/vintage lookup: Python's
range(1, min(20, bound + 1)) runs indices 1 through min(19, bound). -/
def vintageCoords (ws : Ws) : List (Nat × Nat) :=
  (List.range' 1 (min 19 ws.maxRow)).flatMap fun r =>
    (List.range' 1 (min 19 ws.maxCol)).map fun c => (r, c)

/-- One cell of the benchmark/vintage scan (report.py lines 213-221):
record the row of the first exact "benchmark" label and, independently,
the column of the first cell containing "vintage". -/
def vintageScanStep (g : Nat → Nat → CellValue) (st : Option Nat × Option Nat)
    (rc : Nat × Nat) : Option Nat × Option Nat :=
  if pyTruthy (g rc.1 rc.2) then
    let s := pyLower (pyStrip (pyStr (g rc.1 rc.2)))
    ((if (s == "benchmark") && st.1.isNone then some rc.1 else st.1),
     (if strContains s "vintage" && st.2.isNone then some rc.2 else st.2))
  else st

/-- Embeds the Accuracy-sheet benchmark/vintage lookup
(report.py lines 206-231): if both coordinates are found and the cell at
their intersection is non-empty, return its converted value. -/
def findBenchmarkVintage (ws : Ws) : Option CellValue :=
  let st := (vintageCoords ws).foldl (vintageScanStep ws.grid) (Option.none, Option.none)
  match st.1, st.2 with
  | some r, some c =>
    if ws.grid r c ≠ CellValue.none then some (convert_date_value (ws.grid r c))
    else Option.none
  | _, _ => Option.none

/-- Python falsiness of the model/segment accumulator: None or the empty
string (report.py guards `if not model_name`). -/
def optFalsy : Option String → Bool
  | Option.none => true
  | some s => s == ""

/-- Keyword test: any keyword occurs in the lower-cased cell text
(report.py lines 122, 130). -/
def kwMatch (kws : List String) (s : String) : Bool :=
  kws.any fun k => strContains (pyLower s) k

/-- Text after the last colon, stripped: Python s.split(colon)[-1].strip(). -/
def afterLastColon (s : String) : String :=
  pyStrip ⟨(s.data.reverse.takeWhile (fun c => c != ':')).reverse⟩

/-- One cell of the model/segment search for a single accumulator
(report.py lines 122-128 and 130-136): only a falsy accumulator is
updated; with a colon the inline value is taken, otherwise the adjacent
right cell when truthy. -/
def extractStepM (g : Nat → Nat → CellValue) (kws : List String)
    (st : Option String) (rc : Nat × Nat) : Option String :=
  if pyTruthy (g rc.1 rc.2) then
    let cs := pyStrip (pyStr (g rc.1 rc.2))
    if optFalsy st && kwMatch kws cs then
      if cs.data.contains ':' then some (afterLastColon cs)
      else if pyTruthy (g rc.1 (rc.2 + 1)) then some (pyStrip (pyStr (g rc.1 (rc.2 + 1))))
      else st
    else st
  else st

/-- One cell of the model/segment search: both accumulators are checked
against the same cell in one loop iteration (report.py lines 116-136). -/
def extractStep (g : Nat → Nat → CellValue) (kwsM kwsS : List String)
    (st : Option String × Option String) (rc : Nat × Nat) : Option String × Option String :=
  (extractStepM g kwsM st.1 rc, extractStepM g kwsS st.2 rc)

/-- Scan region of the model/segment search: Python's
range(1, min(11, bound + 1)) runs indices 1 through min(10, bound). -/
def extractCoords (ws : Ws) : List (Nat × Nat) :=
  (List.range' 1 (min 10 ws.maxRow)).flatMap fun r =>
    (List.range' 1 (min 10 ws.maxCol)).map fun c => (r, c)

/-- Sanitization of an extracted value (report.py lines 139-144): drop
every character that is not a word character, whitespace or hyphen,
strip, then replace each space character with an underscore. -/
def sanitizeVal (s : String) : String :=
  let kept := s.data.filter fun c => c.isAlphanum || c == '_' || isPySpace c || c == '-'
  ⟨(stripChars kept).map fun c => if c == ' ' then '_' else c⟩

/-- Post-processing of one accumulator (report.py lines 138-144):
sanitize only truthy values. -/
def extractPost : Option String → Option String
  | Option.none => Option.none
  | some v => if v ≠ "" then some (sanitizeVal v) else some v

/-- Embeds extract_model_and_segment (report.py lines 107-146), applied
to the workbook's first sheet. -/
def extract_model_and_segment (ws : Ws) : Option String × Option String :=
  let st := (extractCoords ws).foldl
    (extractStep ws.grid ["model", "vehicle", "car"] ["segment", "category", "class"])
    (Option.none, Option.none)
  (extractPost st.1, extractPost st.2)

/-! Spec-side definitions.  These follow the wording of the specification
(or its corrected wording) rather than the control flow of the source,
and are compared with the embedded functions above. -/

/-- DateToken test exactly as the specification words it: the value's
string form, after stripping everything from the first decimal point
onward, is exactly 6 digits whose first 4 form a year in 1900-2100 and
whose last 2 form a month in 1-12.  (No whitespace trimming.) -/
def dateTokenLiteral (v : CellValue) : Bool :=
  let s := (pyStr v).data.takeWhile (fun c => c != '.')
  (s.length == 6) && s.all (fun c => c.isDigit) &&
    decide (1900 ≤ digitsVal (s.take 4)) && decide (digitsVal (s.take 4) ≤ 2100) &&
    decide (1 ≤ digitsVal (s.drop 4)) && decide (digitsVal (s.drop 4) ≤ 12)

/-- DateToken test as amended: the string form is first trimmed of
surrounding whitespace, then truncated at the first decimal point, and
must be exactly 6 digits with year 1900-2100 and month 1-12. -/
def dateTokenCheck (v : CellValue) : Bool :=
  let s := (stripChars (pyStr v).data).takeWhile (fun c => c != '.')
  (s.length == 6) && s.all (fun c => c.isDigit) &&
    decide (1900 ≤ digitsVal (s.take 4)) && decide (digitsVal (s.take 4) ≤ 2100) &&
    decide (1 ≤ digitsVal (s.drop 4)) && decide (digitsVal (s.drop 4) ≤ 12)

/-- Strict YYYYMM token: the string itself (no truncation at a decimal
point) is exactly 6 digits with year 1900-2100 and month 1-12.  This is
the condition under which convert_date_value actually reformats a
value. -/
def isStrictDateToken (s : String) : Bool :=
  (s.data.length == 6) && s.data.all (fun c => c.isDigit) &&
    decide (1900 ≤ digitsVal (s.data.take 4)) && decide (digitsVal (s.data.take 4) ≤ 2100) &&
    decide (1 ≤ digitsVal (s.data.drop 4)) && decide (digitsVal (s.data.drop 4) ≤ 12)

/-- Mon-YY display form of a strict-token string. -/
def tokenDisplay (s : String) : CellValue :=
  .str (formatMonYY (digitsVal (s.data.take 4)) (digitsVal (s.data.drop 4)))

/-- Date conversion as amended: text converts exactly when its trimmed
form is a strict YYYYMM token (dotted text that only passes the
truncating DateToken test is returned unchanged); a numeric value
converts exactly when the string form of its truncated integer part is a
strict token; everything else is unchanged. -/
def convSpec : CellValue → CellValue
  | .none => .none
  | .str s => if isStrictDateToken (pyStrip s) then tokenDisplay (pyStrip s) else .str s
  | .int n => if isStrictDateToken (pyIntRepr n) then tokenDisplay (pyIntRepr n) else .int n
  | .dec ip frac =>
    if isStrictDateToken (pyIntRepr ip) then tokenDisplay (pyIntRepr ip) else .dec ip frac

/-- An extraction event of the alert scan: a summary label (containing
"summary" but not "performance") or an overall-comments label (containing
"overall" and "comment") whose rightward search found a text. -/
inductive AlertEvent where
  | summaryHit (t : String)
  | overallHit (t : String)
deriving DecidableEq

/-- The extracted text of an event. -/
def eventText : AlertEvent → String
  | .summaryHit t => t
  | .overallHit t => t

/-- The alert-detail message an alerting event appends. -/
def eventMsg : AlertEvent → String
  | .summaryHit t => "Summary contains alert: " ++ t
  | .overallHit t => "Overall Comments contains alert: " ++ t

/-- Effect of one extraction event on the report: record the text in the
corresponding field and, exactly when it contains red or yellow, raise
the alert flag and append the detail message. -/
def applyEvent (st : Alerts) : AlertEvent → Alerts
  | .summaryHit t =>
    if redYellow t then
      { st with
        summary := some t
        has_alerts := true
        alert_details := st.alert_details ++ [eventMsg (.summaryHit t)] }
    else { st with summary := some t }
  | .overallHit t =>
    if redYellow t then
      { st with
        overall_comments := some t
        has_alerts := true
        alert_details := st.alert_details ++ [eventMsg (.overallHit t)] }
    else { st with overall_comments := some t }

/-- Replay a list of extraction events over a report. -/
def replay (evs : List AlertEvent) (st : Alerts) : Alerts := evs.foldl applyEvent st

/-- Extraction events produced by one cell: a summary event when its text
contains "summary" but not "performance" and the rightward search
succeeds, then an overall event when its text contains "overall" and
"comment" and the rightward search succeeds. -/
def cellEvents (g : Nat → Nat → CellValue) (rc : Nat × Nat) : List AlertEvent :=
  if pyTruthy (g rc.1 rc.2) then
    let s := pyLower (pyStrip (pyStr (g rc.1 rc.2)))
    (if strContains s "summary" && !strContains s "performance" then
      (firstRight g rc.1 rc.2).toList.map .summaryHit
    else []) ++
    (if strContains s "overall" && strContains s "comment" then
      (firstRight g rc.1 rc.2).toList.map .overallHit
    else [])
  else []

/-- All extraction events of a workbook, in scan order. -/
def wbEvents (wb : List Ws) : List AlertEvent :=
  wb.flatMap fun ws => (alertCoords ws).flatMap (cellEvents ws.grid)

/-- Texts of the summary events, in order. -/
def summaryTexts (evs : List AlertEvent) : List String :=
  evs.filterMap fun e => match e with | .summaryHit t => some t | _ => Option.none

/-- Texts of the overall-comments events, in order. -/
def overallTexts (evs : List AlertEvent) : List String :=
  evs.filterMap fun e => match e with | .overallHit t => some t | _ => Option.none

/-- Benchmark label test of a cell, as the specification words it. -/
def benchLabel (g : Nat → Nat → CellValue) (rc : Nat × Nat) : Bool :=
  pyTruthy (g rc.1 rc.2) && (pyLower (pyStrip (pyStr (g rc.1 rc.2))) == "benchmark")

/-- Vintage label test of a cell, as the specification words it. -/
def vintLabel (g : Nat → Nat → CellValue) (rc : Nat × Nat) : Bool :=
  pyTruthy (g rc.1 rc.2) && strContains (pyLower (pyStrip (pyStr (g rc.1 rc.2)))) "vintage"

/-- Benchmark/vintage lookup as amended: the row of the first benchmark
label and the column of the first vintage label over the bounded region,
row-major; if both exist and the cell at their intersection is
non-empty, its converted value. -/
def findVintageSpec (ws : Ws) : Option CellValue :=
  match ((vintageCoords ws).find? (benchLabel ws.grid)).map Prod.fst,
        ((vintageCoords ws).find? (vintLabel ws.grid)).map Prod.snd with
  | some r, some c =>
    if ws.grid r c ≠ CellValue.none then some (convert_date_value (ws.grid r c))
    else Option.none
  | _, _ => Option.none

/-- Extraction attempt of the model/segment search at one cell: when the
cell is truthy and its stripped text contains a keyword, the text after
the last colon if a colon is present, otherwise the stripped text of the
truthy right neighbour; none when no extraction happens. -/
def attemptAt (g : Nat → Nat → CellValue) (kws : List String) (rc : Nat × Nat) :
    Option String :=
  if pyTruthy (g rc.1 rc.2) && kwMatch kws (pyStrip (pyStr (g rc.1 rc.2))) then
    if (pyStrip (pyStr (g rc.1 rc.2))).data.contains ':' then
      some (afterLastColon (pyStrip (pyStr (g rc.1 rc.2))))
    else if pyTruthy (g rc.1 (rc.2 + 1)) then some (pyStrip (pyStr (g rc.1 (rc.2 + 1))))
    else Option.none
  else Option.none

/-- Attempted extractions over the scan region, in row-major order. -/
def attemptList (g : Nat → Nat → CellValue) (kws : List String)
    (coords : List (Nat × Nat)) : List String :=
  coords.filterMap (attemptAt g kws)

/-- Raw result of the model/segment search as amended: scan the
extraction attempts in order; the first non-empty attempt is final, while
an empty attempt records the empty value and lets the scan continue. -/
def rawResult : List String → Option String → Option String
  | [], st => st
  | t :: rest, st => if t == "" then rawResult rest (some t) else some t

/-! Concrete worksheets used by counterexamples and witnesses. -/

/-- Sheet with an empty B14 and a text in B17. -/
def b17CexSheet : Sheet := fun r c =>
  if r = 17 ∧ c = 2 then CellValue.str "hello" else CellValue.none

/-- Sheet with a date token in B14 only. -/
def b17WitnessSheet : Sheet := fun r c =>
  if r = 14 ∧ c = 2 then CellValue.str "202403" else CellValue.none

/-- Sheet whose summary label sits in column 10, just outside the scanned
columns but inside the region the specification claims. -/
def alertCexGrid : Nat → Nat → CellValue := fun r c =>
  if r = 1 ∧ c = 10 then CellValue.str "Summary"
  else if r = 1 ∧ c = 11 then CellValue.str "Red" else CellValue.none

/-- The counterexample worksheet for the alert-scan bounds. -/
def alertCexWs : Ws := ⟨alertCexGrid, 1, 11⟩

/-- Grid holding only the excluded label Performance Summary. -/
def perfGrid : Nat → Nat → CellValue := fun r c =>
  if r = 1 ∧ c = 1 then CellValue.str "Performance Summary" else CellValue.none

/-- First sheet of the last-match-wins workbook. -/
def lastWinsGridA : Nat → Nat → CellValue := fun r c =>
  if r = 1 ∧ c = 1 then CellValue.str "Summary"
  else if r = 1 ∧ c = 2 then CellValue.str "Red one" else CellValue.none

/-- Second sheet of the last-match-wins workbook. -/
def lastWinsGridB : Nat → Nat → CellValue := fun r c =>
  if r = 1 ∧ c = 1 then CellValue.str "Summary"
  else if r = 1 ∧ c = 2 then CellValue.str "Yellow two" else CellValue.none

/-- Two-sheet workbook whose summary label matches on both sheets. -/
def lastWinsWb : List Ws := [⟨lastWinsGridA, 1, 3⟩, ⟨lastWinsGridB, 1, 3⟩]

/-- Accuracy sheet whose benchmark label sits in row 20, just outside the
scanned rows but inside the region the specification claims. -/
def vintageCexGrid : Nat → Nat → CellValue := fun r c =>
  if r = 20 ∧ c = 1 then CellValue.str "Benchmark"
  else if r = 1 ∧ c = 2 then CellValue.str "Vintage"
  else if r = 20 ∧ c = 2 then CellValue.str "202401" else CellValue.none

/-- The counterexample worksheet for the vintage-lookup bounds. -/
def vintageCexWs : Ws := ⟨vintageCexGrid, 25, 2⟩

/-- Sheet whose first keyword cell extracts an empty value and whose
second keyword cell holds a double-spaced inline value. -/
def extractCexGrid : Nat → Nat → CellValue := fun r c =>
  if r = 1 ∧ c = 1 then CellValue.str "Model:"
  else if r = 2 ∧ c = 1 then CellValue.str "Model: Sedan  X" else CellValue.none

/-- The counterexample worksheet for the model extraction. -/
def extractCexWs : Ws := ⟨extractCexGrid, 2, 2⟩

/-! Infrastructure lemmas. -/
theorem isDigit_not_pySpace {c : Char} (h : c.isDigit = true) : isPySpace c = false := by
  by_contra hc
  rw [Bool.not_eq_false] at hc
  simp only [isPySpace, Bool.or_eq_true, beq_iff_eq] at hc
  rcases hc with ((((rfl | rfl) | rfl) | rfl) | rfl) | rfl <;> exact absurd h (by decide)

theorem isDigit_ne_dot {c : Char} (h : c.isDigit = true) : (c != '.') = true := by
  by_contra hc
  rw [Bool.not_eq_true, bne_eq_false_iff_eq] at hc
  subst hc
  exact absurd h (by decide)

theorem digitChar_isDigit {n : Nat} (h : n < 10) : (digitChar n).isDigit = true := by
  interval_cases n <;> decide

theorem natDigitsF_all_digit : ∀ (fuel n : Nat), ∀ c ∈ natDigitsF fuel n, c.isDigit = true := by
  intro fuel
  induction fuel with
  | zero =>
    intro n c hc
    simp [natDigitsF] at hc
  | succ f ih =>
    intro n c hc
    rw [natDigitsF] at hc
    split at hc
    · rw [List.mem_singleton] at hc
      subst hc
      exact digitChar_isDigit (by omega)
    · rw [List.mem_append] at hc
      rcases hc with hc | hc
      · exact ih (n / 10) c hc
      · rw [List.mem_singleton] at hc
        subst hc
        exact digitChar_isDigit (Nat.mod_lt _ (by omega))

theorem natDigits_all_digit (n : Nat) : ∀ c ∈ natDigits n, c.isDigit = true :=
  natDigitsF_all_digit (n + 1) n

theorem dropWhile_all_false {p : Char → Bool} {l : List Char}
    (h : ∀ c ∈ l, p c = false) : l.dropWhile p = l := by
  cases l with
  | nil => rfl
  | cons a t => rw [List.dropWhile_cons, h a (List.mem_cons_self a t)]; simp

theorem takeWhile_all_true {p : Char → Bool} {l : List Char}
    (h : ∀ c ∈ l, p c = true) : l.takeWhile p = l := by
  induction l with
  | nil => rfl
  | cons a t ih =>
    rw [List.takeWhile_cons, h a (List.mem_cons_self a t)]
    simp only [if_true]
    rw [ih fun c hc => h c (List.mem_cons_of_mem a hc)]

theorem stripChars_eq_self {l : List Char} (h : ∀ c ∈ l, isPySpace c = false) :
    stripChars l = l := by
  unfold stripChars
  rw [dropWhile_all_false h, dropWhile_all_false fun c hc => h c (List.mem_reverse.mp hc),
    List.reverse_reverse]

theorem contains_eq_false_of_not_mem {l : List Char} {a : Char} (h : a ∉ l) :
    l.contains a = false := by
  by_contra hc
  rw [Bool.not_eq_false] at hc
  exact h (List.elem_iff.mp hc)


theorem rev_dropWhile_last {p : Char → Bool} {c : Char} (h : p c = false) :
    ∀ l : List Char, ∃ t2, ((l ++ [c]).dropWhile p).reverse = c :: t2 := by
  intro l
  induction l with
  | nil =>
    refine ⟨[], ?_⟩
    rw [List.nil_append, List.dropWhile_cons, h]
    simp
  | cons a t ih =>
    rw [List.cons_append, List.dropWhile_cons]
    by_cases ha : p a = true
    · rw [ha]; simpa using ih
    · rw [Bool.not_eq_true] at ha
      rw [ha]
      refine ⟨t.reverse ++ [a], ?_⟩
      simp

theorem stripChars_cons_of_not_space {c : Char} {t : List Char} (h : isPySpace c = false) :
    ∃ t2, stripChars (c :: t) = c :: t2 := by
  unfold stripChars
  rw [List.dropWhile_cons, h]
  simp only [if_false, Bool.false_eq_true]
  have : (c :: t).reverse = t.reverse ++ [c] := by simp
  rw [this]
  exact rev_dropWhile_last h t.reverse

theorem pyIntRepr_no_space (n : Int) : ∀ c ∈ (pyIntRepr n).data, isPySpace c = false := by
  intro c hc
  unfold pyIntRepr at hc
  rw [String.data_append] at hc
  rw [List.mem_append] at hc
  rcases hc with hc | hc
  · split at hc
    · rw [show ("-" : String).data = ['-'] from rfl, List.mem_singleton] at hc
      subst hc; decide
    · simp at hc
  · exact isDigit_not_pySpace (natDigits_all_digit _ c hc)

theorem pyIntRepr_no_dot (n : Int) : ((pyIntRepr n).data.contains '.') = false := by
  apply contains_eq_false_of_not_mem
  intro hmem
  unfold pyIntRepr at hmem
  rw [String.data_append, List.mem_append] at hmem
  rcases hmem with hc | hc
  · split at hc
    · rw [show ("-" : String).data = ['-'] from rfl, List.mem_singleton] at hc
      exact absurd hc (by decide)
    · simp at hc
  · have := natDigits_all_digit n.natAbs '.' hc
    exact absurd this (by decide)

theorem stripChars_pyIntRepr (n : Int) : stripChars (pyIntRepr n).data = (pyIntRepr n).data :=
  stripChars_eq_self (pyIntRepr_no_space n)

theorem strptime_eq_some {s : String} {y m : Nat} (h : strptimeYYYYMM s = some (y, m)) :
    s.data.length = 6 ∧ s.data.all (fun c => c.isDigit) = true ∧
      y = digitsVal (s.data.take 4) ∧ m = digitsVal (s.data.drop 4) ∧
      1 ≤ m ∧ m ≤ 12 ∧ 1 ≤ y := by
  simp only [strptimeYYYYMM] at h
  split at h
  · split at h
    · rename_i h1 h2
      injection h with h3
      injection h3 with hy hm
      exact ⟨h1.1, h1.2, hy.symm, hm.symm, hm ▸ h2.1, hm ▸ h2.2.1, hy ▸ h2.2.2⟩
    · exact absurd h (by simp)
  · exact absurd h (by simp)


theorem is_date_format_head_false {S : String} {c : Char} {t : List Char}
    (hS : S.data = c :: t) (hsp : isPySpace c = false) (hd : c.isDigit = false)
    (hdot : (c != '.') = true) : is_date_format (.str S) = false := by
  obtain ⟨t2, hstrip⟩ := stripChars_cons_of_not_space (t := t) hsp
  simp only [is_date_format, pyStr]
  rw [hS, hstrip]
  have hL : ∃ u, (if (c :: t2).contains '.' = true
      then List.takeWhile (fun x => x != '.') (c :: t2) else c :: t2) = c :: u := by
    by_cases hc2 : (c :: t2).contains '.' = true
    · rw [if_pos hc2, List.takeWhile_cons, hdot]
      exact ⟨_, rfl⟩
    · rw [if_neg hc2]
      exact ⟨t2, rfl⟩
  obtain ⟨u, hu⟩ := hL
  rw [hu]
  have hcf : ¬((c :: u).length = 6 ∧ ((c :: u).all fun x => x.isDigit) = true) := by
    rintro ⟨-, hall⟩
    rw [List.all_cons, hd] at hall
    simp at hall
  rw [if_neg hcf]

theorem is_date_format_abbr (a : String) (k : Nat) (c : Char) (t : List Char)
    (ha : a.data = c :: t) (hsp : isPySpace c = false) (hd : c.isDigit = false)
    (hdot : (c != '.') = true) : is_date_format (.str (a ++ "-" ++ pad2 k)) = false := by
  apply is_date_format_head_false (c := c) (t := t ++ '-' :: (pad2 k).data) _ hsp hd hdot
  rw [String.data_append, String.data_append, ha]
  simp

theorem formatMonYY_not_date {y m : Nat} (h1 : 1 ≤ m) (h2 : m ≤ 12) :
    is_date_format (.str (formatMonYY y m)) = false := by
  unfold formatMonYY monthAbbr
  interval_cases m
  · exact is_date_format_abbr "Jan" _ 'J' ['a', 'n'] rfl (by decide) (by decide) (by decide)
  · exact is_date_format_abbr "Feb" _ 'F' ['e', 'b'] rfl (by decide) (by decide) (by decide)
  · exact is_date_format_abbr "Mar" _ 'M' ['a', 'r'] rfl (by decide) (by decide) (by decide)
  · exact is_date_format_abbr "Apr" _ 'A' ['p', 'r'] rfl (by decide) (by decide) (by decide)
  · exact is_date_format_abbr "May" _ 'M' ['a', 'y'] rfl (by decide) (by decide) (by decide)
  · exact is_date_format_abbr "Jun" _ 'J' ['u', 'n'] rfl (by decide) (by decide) (by decide)
  · exact is_date_format_abbr "Jul" _ 'J' ['u', 'l'] rfl (by decide) (by decide) (by decide)
  · exact is_date_format_abbr "Aug" _ 'A' ['u', 'g'] rfl (by decide) (by decide) (by decide)
  · exact is_date_format_abbr "Sep" _ 'S' ['e', 'p'] rfl (by decide) (by decide) (by decide)
  · exact is_date_format_abbr "Oct" _ 'O' ['c', 't'] rfl (by decide) (by decide) (by decide)
  · exact is_date_format_abbr "Nov" _ 'N' ['o', 'v'] rfl (by decide) (by decide) (by decide)
  · exact is_date_format_abbr "Dec" _ 'D' ['e', 'c'] rfl (by decide) (by decide) (by decide)

theorem convert_not_date {S : String} (h : is_date_format (.str S) = false) :
    convert_date_value (.str S) = .str S := by
  simp [convert_date_value, h]

theorem convert_idem (v : CellValue) :
    convert_date_value (convert_date_value v) = convert_date_value v := by
  cases v with
  | none => rfl
  | str s =>
    by_cases h : is_date_format (.str s)
    · cases hsp : strptimeYYYYMM (pyStrip s) with
      | none => simp only [convert_date_value, if_pos h, hsp]
      | some ym =>
        obtain ⟨y, m⟩ := ym
        have hb := strptime_eq_some hsp
        have hfix : convert_date_value (.str s) = .str (formatMonYY y m) := by
          simp only [convert_date_value, if_pos h, hsp]
        rw [hfix, convert_not_date (formatMonYY_not_date hb.2.2.2.2.1 hb.2.2.2.2.2.1)]
    · rw [convert_not_date (by simpa using h), convert_not_date (by simpa using h)]
  | int n =>
    by_cases h : is_date_format (.int n)
    · cases hsp : strptimeYYYYMM (pyIntRepr n) with
      | none => simp only [convert_date_value, if_pos h, hsp]
      | some ym =>
        obtain ⟨y, m⟩ := ym
        have hb := strptime_eq_some hsp
        have hfix : convert_date_value (.int n) = .str (formatMonYY y m) := by
          simp only [convert_date_value, if_pos h, hsp]
        rw [hfix, convert_not_date (formatMonYY_not_date hb.2.2.2.2.1 hb.2.2.2.2.2.1)]
    · have hfix : convert_date_value (.int n) = .int n := by
        simp only [convert_date_value, if_neg h]
      rw [hfix, hfix]
  | dec ip frac =>
    by_cases h : is_date_format (.int ip)
    · cases hsp : strptimeYYYYMM (pyIntRepr ip) with
      | none => simp only [convert_date_value, if_pos h, hsp]
      | some ym =>
        obtain ⟨y, m⟩ := ym
        have hb := strptime_eq_some hsp
        have hfix : convert_date_value (.dec ip frac) = .str (formatMonYY y m) := by
          simp only [convert_date_value, if_pos h, hsp]
        rw [hfix, convert_not_date (formatMonYY_not_date hb.2.2.2.2.1 hb.2.2.2.2.2.1)]
    · have hfix : convert_date_value (.dec ip frac) = .dec ip frac := by
        simp only [convert_date_value, if_neg h]
      rw [hfix, hfix]

theorem convert_eq_none_iff (v : CellValue) :
    convert_date_value v = CellValue.none ↔ v = CellValue.none := by
  cases v with
  | none => simp [convert_date_value]
  | str s =>
    simp only [convert_date_value]
    constructor
    · intro h
      split at h
      · split at h <;> exact absurd h (by simp)
      · exact absurd h (by simp)
    · intro h; exact absurd h (by simp)
  | int n =>
    simp only [convert_date_value]
    constructor
    · intro h
      split at h
      · split at h <;> exact absurd h (by simp)
      · exact absurd h (by simp)
    · intro h; exact absurd h (by simp)
  | dec ip frac =>
    simp only [convert_date_value]
    constructor
    · intro h
      split at h
      · split at h <;> exact absurd h (by simp)
      · exact absurd h (by simp)
    · intro h; exact absurd h (by simp)

/-! Worksheet propagation lemmas. -/
theorem updateCell_self (ws : Sheet) (r c : Nat) (v : CellValue) :
    updateCell ws r c v r c = v := by
  simp [updateCell]

theorem updateCell_other {r c r2 c2 : Nat} (h : ¬(r2 = r ∧ c2 = c)) (ws : Sheet)
    (v : CellValue) : updateCell ws r c v r2 c2 = ws r2 c2 := by
  simp only [updateCell, if_neg h]

theorem targetStep_other {rc : Nat × Nat} {r2 c2 : Nat} (h : ¬(r2 = rc.1 ∧ c2 = rc.2))
    (psi : Option CellValue) (ws : Sheet) : targetStep psi ws rc r2 c2 = ws r2 c2 := by
  unfold targetStep
  split
  · rename_i hcond
    obtain ⟨hrc, -⟩ := hcond
    subst hrc
    exact updateCell_other h ws _
  · split
    · rfl
    · split
      · split
        · exact updateCell_other h ws _
        · rfl
      · rfl

theorem targetStep_self_conv {rc : Nat × Nat} (psi : Option CellValue) (ws : Sheet)
    (h17 : ¬(rc = (17, 2) ∧ psi ≠ Option.none)) (h14 : rc ≠ (14, 2)) :
    targetStep psi ws rc rc.1 rc.2 = convert_date_value (ws rc.1 rc.2) := by
  unfold targetStep
  rw [if_neg h17, if_neg h14]
  by_cases hv : ws rc.1 rc.2 ≠ CellValue.none
  · rw [if_pos hv]
    by_cases hcv : convert_date_value (ws rc.1 rc.2) ≠ ws rc.1 rc.2
    · rw [if_pos hcv, updateCell_self]
    · rw [if_neg hcv]
      push_neg at hcv
      exact hcv.symm
  · rw [if_neg hv]
    push_neg at hv
    rw [hv]
    rfl

theorem targetStep_14 (psi : Option CellValue) (ws : Sheet) :
    targetStep psi ws (14, 2) 14 2 = ws 14 2 := by
  unfold targetStep
  rw [if_neg (fun hc => by exact absurd hc.1 (by decide)), if_pos rfl]

theorem targetStep_17_some (p : CellValue) (ws : Sheet) :
    targetStep (some p) ws (17, 2) 17 2 = p := by
  unfold targetStep
  rw [if_pos ⟨rfl, by simp⟩, updateCell_self]
  rfl

theorem step2_at_14 (psi : Option CellValue) (ws : Sheet) : step2 psi ws 14 2 = ws 14 2 := by
  show targetStep psi (targetStep psi (targetStep psi (targetStep psi
    (targetStep psi ws (7, 2)) (14, 2)) (15, 2)) (16, 2)) (17, 2) 14 2 = ws 14 2
  rw [targetStep_other (by decide), targetStep_other (by decide),
    targetStep_other (by decide), targetStep_14, targetStep_other (by decide)]

theorem step2_at_7 (psi : Option CellValue) (ws : Sheet) :
    step2 psi ws 7 2 = convert_date_value (ws 7 2) := by
  show targetStep psi (targetStep psi (targetStep psi (targetStep psi
    (targetStep psi ws (7, 2)) (14, 2)) (15, 2)) (16, 2)) (17, 2) 7 2 =
      convert_date_value (ws 7 2)
  rw [targetStep_other (by decide), targetStep_other (by decide),
    targetStep_other (by decide), targetStep_other (by decide)]
  exact targetStep_self_conv psi ws (fun hc => by exact absurd hc.1 (by decide)) (by decide)

theorem step2_at_15 (psi : Option CellValue) (ws : Sheet) :
    step2 psi ws 15 2 = convert_date_value (ws 15 2) := by
  show targetStep psi (targetStep psi (targetStep psi (targetStep psi
    (targetStep psi ws (7, 2)) (14, 2)) (15, 2)) (16, 2)) (17, 2) 15 2 =
      convert_date_value (ws 15 2)
  rw [targetStep_other (by decide), targetStep_other (by decide)]
  rw [targetStep_self_conv psi _ (fun hc => by exact absurd hc.1 (by decide)) (by decide)]
  rw [targetStep_other (by decide), targetStep_other (by decide)]

theorem step2_at_16 (psi : Option CellValue) (ws : Sheet) :
    step2 psi ws 16 2 = convert_date_value (ws 16 2) := by
  show targetStep psi (targetStep psi (targetStep psi (targetStep psi
    (targetStep psi ws (7, 2)) (14, 2)) (15, 2)) (16, 2)) (17, 2) 16 2 =
      convert_date_value (ws 16 2)
  rw [targetStep_other (by decide)]
  rw [targetStep_self_conv psi _ (fun hc => by exact absurd hc.1 (by decide)) (by decide)]
  rw [targetStep_other (by decide), targetStep_other (by decide), targetStep_other (by decide)]

theorem step2_at_17_some (p : CellValue) (ws : Sheet) : step2 (some p) ws 17 2 = p := by
  show targetStep (some p) (targetStep (some p) (targetStep (some p) (targetStep (some p)
    (targetStep (some p) ws (7, 2)) (14, 2)) (15, 2)) (16, 2)) (17, 2) 17 2 = p
  exact targetStep_17_some p _

theorem step2_at_17_none (ws : Sheet) :
    step2 Option.none ws 17 2 = convert_date_value (ws 17 2) := by
  show targetStep Option.none (targetStep Option.none (targetStep Option.none
    (targetStep Option.none (targetStep Option.none ws (7, 2)) (14, 2)) (15, 2)) (16, 2))
      (17, 2) 17 2 = convert_date_value (ws 17 2)
  rw [targetStep_self_conv Option.none _ (fun hc => hc.2 rfl) (by decide)]
  rw [targetStep_other (by decide), targetStep_other (by decide),
    targetStep_other (by decide), targetStep_other (by decide)]

theorem step2_other {r c : Nat} (h7 : ¬(r = 7 ∧ c = 2)) (h14 : ¬(r = 14 ∧ c = 2))
    (h15 : ¬(r = 15 ∧ c = 2)) (h16 : ¬(r = 16 ∧ c = 2)) (h17 : ¬(r = 17 ∧ c = 2))
    (psi : Option CellValue) (ws : Sheet) : step2 psi ws r c = ws r c := by
  show targetStep psi (targetStep psi (targetStep psi (targetStep psi
    (targetStep psi ws (7, 2)) (14, 2)) (15, 2)) (16, 2)) (17, 2) r c = ws r c
  rw [targetStep_other h17, targetStep_other h16, targetStep_other h15,
    targetStep_other h14, targetStep_other h7]

theorem step1Sheet_at_14 (ws : Sheet) : step1Sheet ws 14 2 = convert_date_value (ws 14 2) := by
  unfold step1Sheet
  by_cases h : ws 14 2 ≠ CellValue.none
  · rw [if_pos h, updateCell_self]
  · rw [if_neg h]
    push_neg at h
    rw [h]
    rfl

theorem step1Sheet_other {r c : Nat} (h : ¬(r = 14 ∧ c = 2)) (ws : Sheet) :
    step1Sheet ws r c = ws r c := by
  unfold step1Sheet
  split
  · exact updateCell_other h ws _
  · rfl


theorem step1Psi_none {ws : Sheet} (h : ws 14 2 = CellValue.none) :
    step1Psi ws = Option.none := by
  unfold step1Psi
  rw [if_neg (by simpa using h)]

theorem step1Psi_some {ws : Sheet} (h : ws 14 2 ≠ CellValue.none) :
    step1Psi ws = some (convert_date_value (ws 14 2)) := by
  unfold step1Psi
  rw [if_pos h]

theorem step3_not_ov {v : Option CellValue} {n : String}
    (h : ¬(pyLower n = "overview" ∧ v ≠ Option.none)) (ws : Sheet) : step3 v n ws = ws := by
  unfold step3
  rw [if_neg h]

theorem step3_other {v : Option CellValue} {n : String} {r c : Nat}
    (h15 : ¬(r = 15 ∧ c = 2)) (h18 : ¬(r = 18 ∧ c = 2)) (ws : Sheet) :
    step3 v n ws r c = ws r c := by
  unfold step3
  split
  · dsimp only
    split
    · split
      · rw [updateCell_other h18, updateCell_other h15]
      · rw [updateCell_other h15]
    · split
      · rw [updateCell_other h18]
      · rfl
  · rfl

theorem step3_ov_15 {v : Option CellValue} {n : String}
    (h : pyLower n = "overview" ∧ v ≠ Option.none) (ws : Sheet) :
    step3 v n ws 15 2 =
      if placeholderAt ws 15 then v.getD CellValue.none else ws 15 2 := by
  unfold step3
  rw [if_pos h]
  split
  · split
    · rw [updateCell_other (by decide), updateCell_self]
    · rw [updateCell_self]
  · split
    · rw [updateCell_other (by decide)]
    · rfl

theorem placeholderAt_congr {ws1 ws2 : Sheet} {r : Nat} (h : ws1 r 2 = ws2 r 2) :
    placeholderAt ws1 r = placeholderAt ws2 r := by
  unfold placeholderAt
  rw [h]

theorem step3_ov_18 {v : Option CellValue} {n : String}
    (h : pyLower n = "overview" ∧ v ≠ Option.none) (ws : Sheet) :
    step3 v n ws 18 2 =
      if placeholderAt ws 18 then v.getD CellValue.none else ws 18 2 := by
  unfold step3
  rw [if_pos h]
  split
  · have hsame : updateCell ws 15 2 (v.getD CellValue.none) 18 2 = ws 18 2 :=
      updateCell_other (by decide) ws _
    rw [placeholderAt_congr hsame]
    split
    · rw [updateCell_self]
    · exact hsame
  · split
    · rw [updateCell_self]
    · rfl

theorem processSheet_at_14 (v : Option CellValue) (n : String) (ws : Sheet) :
    processSheet v n ws 14 2 = convert_date_value (ws 14 2) := by
  unfold processSheet
  rw [step3_other (by decide) (by decide), step2_at_14, step1Sheet_at_14]

theorem processSheet_at_7 (v : Option CellValue) (n : String) (ws : Sheet) :
    processSheet v n ws 7 2 = convert_date_value (ws 7 2) := by
  unfold processSheet
  rw [step3_other (by decide) (by decide), step2_at_7, step1Sheet_other (by decide)]

theorem processSheet_at_16 (v : Option CellValue) (n : String) (ws : Sheet) :
    processSheet v n ws 16 2 = convert_date_value (ws 16 2) := by
  unfold processSheet
  rw [step3_other (by decide) (by decide), step2_at_16, step1Sheet_other (by decide)]

theorem processSheet_at_17 (v : Option CellValue) (n : String) (ws : Sheet) :
    processSheet v n ws 17 2 =
      if ws 14 2 = CellValue.none then convert_date_value (ws 17 2)
      else convert_date_value (ws 14 2) := by
  unfold processSheet
  rw [step3_other (by decide) (by decide)]
  by_cases h : ws 14 2 = CellValue.none
  · rw [step1Psi_none h, step2_at_17_none, step1Sheet_other (by decide), if_pos h]
  · rw [step1Psi_some h, step2_at_17_some, if_neg h]

theorem processSheet_at_15 (v : Option CellValue) (n : String) (ws : Sheet) :
    processSheet v n ws 15 2 =
      if (pyLower n = "overview" ∧ v ≠ Option.none) ∧
          placeholderVal (convert_date_value (ws 15 2)) = true then
        v.getD CellValue.none
      else convert_date_value (ws 15 2) := by
  unfold processSheet
  by_cases hov : pyLower n = "overview" ∧ v ≠ Option.none
  · rw [step3_ov_15 hov]
    have h2 : step2 (step1Psi ws) (step1Sheet ws) 15 2 = convert_date_value (ws 15 2) := by
      rw [step2_at_15, step1Sheet_other (by decide)]
    rw [show placeholderAt (step2 (step1Psi ws) (step1Sheet ws)) 15 =
      placeholderVal (convert_date_value (ws 15 2)) from by
        unfold placeholderAt; rw [h2]]
    by_cases hp : placeholderVal (convert_date_value (ws 15 2)) = true
    · rw [if_pos hp, if_pos ⟨hov, hp⟩]
    · rw [if_neg hp, if_neg (fun hc => hp hc.2), h2]
  · rw [step3_not_ov hov]
    rw [step2_at_15, step1Sheet_other (by decide), if_neg (fun hc => hov hc.1)]

theorem processSheet_at_18 (v : Option CellValue) (n : String) (ws : Sheet) :
    processSheet v n ws 18 2 =
      if (pyLower n = "overview" ∧ v ≠ Option.none) ∧ placeholderVal (ws 18 2) = true then
        v.getD CellValue.none
      else ws 18 2 := by
  unfold processSheet
  have h2 : step2 (step1Psi ws) (step1Sheet ws) 18 2 = ws 18 2 := by
    rw [step2_other (by decide) (by decide) (by decide) (by decide) (by decide),
      step1Sheet_other (by decide)]
  by_cases hov : pyLower n = "overview" ∧ v ≠ Option.none
  · rw [step3_ov_18 hov]
    rw [show placeholderAt (step2 (step1Psi ws) (step1Sheet ws)) 18 =
      placeholderVal (ws 18 2) from by unfold placeholderAt; rw [h2]]
    by_cases hp : placeholderVal (ws 18 2) = true
    · rw [if_pos hp, if_pos ⟨hov, hp⟩]
    · rw [if_neg hp, if_neg (fun hc => hp hc.2), h2]
  · rw [step3_not_ov hov, h2, if_neg (fun hc => hov hc.1)]

theorem processSheet_other {r c : Nat} (h7 : ¬(r = 7 ∧ c = 2)) (h14 : ¬(r = 14 ∧ c = 2))
    (h15 : ¬(r = 15 ∧ c = 2)) (h16 : ¬(r = 16 ∧ c = 2)) (h17 : ¬(r = 17 ∧ c = 2))
    (h18 : ¬(r = 18 ∧ c = 2)) (v : Option CellValue) (n : String) (ws : Sheet) :
    processSheet v n ws r c = ws r c := by
  unfold processSheet
  rw [step3_other h15 h18, step2_other h7 h14 h15 h16 h17, step1Sheet_other h14]


theorem b17_eq_b14_aux (v : Option CellValue) (n : String) (ws : Sheet)
    (h : ws 14 2 ≠ CellValue.none) :
    processSheet v n ws 17 2 = processSheet v n ws 14 2 := by
  rw [processSheet_at_17, processSheet_at_14, if_neg h]

theorem propagation_idem_aux (vs : Option CellValue) (n : String) (ws : Sheet) :
    processSheet (vs.map convert_date_value) n
        (processSheet (vs.map convert_date_value) n ws) =
      processSheet (vs.map convert_date_value) n ws := by
  funext r c
  by_cases h7 : r = 7 ∧ c = 2
  · obtain ⟨rfl, rfl⟩ := h7
    rw [processSheet_at_7, processSheet_at_7, convert_idem]
  by_cases h14 : r = 14 ∧ c = 2
  · obtain ⟨rfl, rfl⟩ := h14
    rw [processSheet_at_14, processSheet_at_14, convert_idem]
  by_cases h16 : r = 16 ∧ c = 2
  · obtain ⟨rfl, rfl⟩ := h16
    rw [processSheet_at_16, processSheet_at_16, convert_idem]
  by_cases h17 : r = 17 ∧ c = 2
  · obtain ⟨rfl, rfl⟩ := h17
    by_cases hb : ws 14 2 = CellValue.none
    · have h1 : processSheet (vs.map convert_date_value) n ws 14 2 = CellValue.none := by
        rw [processSheet_at_14, hb]
        rfl
      rw [processSheet_at_17 _ n (processSheet _ n ws), processSheet_at_17 _ n ws,
        if_pos hb, if_pos h1, convert_idem]
    · have h1 : processSheet (vs.map convert_date_value) n ws 14 2 ≠ CellValue.none := by
        rw [processSheet_at_14]
        rw [Ne, convert_eq_none_iff]
        exact hb
      rw [processSheet_at_17 _ n (processSheet _ n ws), processSheet_at_17 _ n ws,
        if_neg hb, if_neg h1, processSheet_at_14, convert_idem]
  by_cases h15 : r = 15 ∧ c = 2
  · obtain ⟨rfl, rfl⟩ := h15
    cases vs with
    | none =>
      have hov : ¬((pyLower n = "overview" ∧ (Option.none.map convert_date_value) ≠
          (Option.none : Option CellValue)) ∧
          placeholderVal (convert_date_value (ws 15 2)) = true) := by
        rintro ⟨⟨-, hne⟩, -⟩
        exact hne rfl
      have h1 : processSheet (Option.none.map convert_date_value) n ws 15 2 =
          convert_date_value (ws 15 2) := by
        rw [processSheet_at_15, if_neg hov]
      rw [processSheet_at_15, h1, convert_idem, if_neg hov]
    | some w =>
      by_cases hov : pyLower n = "overview" ∧
          ((some w).map convert_date_value) ≠ (Option.none : Option CellValue)
      · by_cases hp : placeholderVal (convert_date_value (ws 15 2)) = true
        · have h1 : processSheet ((some w).map convert_date_value) n ws 15 2 =
              convert_date_value w := by
            rw [processSheet_at_15, if_pos ⟨hov, hp⟩]
            rfl
          rw [processSheet_at_15, h1, convert_idem]
          by_cases hp2 : placeholderVal (convert_date_value w) = true
          · rw [if_pos ⟨hov, hp2⟩]
            rfl
          · rw [if_neg (fun hc => hp2 hc.2)]
        · have h1 : processSheet ((some w).map convert_date_value) n ws 15 2 =
              convert_date_value (ws 15 2) := by
            rw [processSheet_at_15, if_neg (fun hc => hp hc.2)]
          rw [processSheet_at_15, h1, convert_idem, if_neg (fun hc => hp hc.2)]
      · have h1 : processSheet ((some w).map convert_date_value) n ws 15 2 =
            convert_date_value (ws 15 2) := by
          rw [processSheet_at_15, if_neg (fun hc => hov hc.1)]
        rw [processSheet_at_15, h1, convert_idem, if_neg (fun hc => hov hc.1)]
  by_cases h18 : r = 18 ∧ c = 2
  · obtain ⟨rfl, rfl⟩ := h18
    cases vs with
    | none =>
      have hov : ∀ x : CellValue, ¬((pyLower n = "overview" ∧
          (Option.none.map convert_date_value) ≠ (Option.none : Option CellValue)) ∧
          placeholderVal x = true) := by
        rintro x ⟨⟨-, hne⟩, -⟩
        exact hne rfl
      have h1 : processSheet (Option.none.map convert_date_value) n ws 18 2 = ws 18 2 := by
        rw [processSheet_at_18, if_neg (hov _)]
      rw [processSheet_at_18, h1, if_neg (hov _)]
    | some w =>
      by_cases hov : pyLower n = "overview" ∧
          ((some w).map convert_date_value) ≠ (Option.none : Option CellValue)
      · by_cases hp : placeholderVal (ws 18 2) = true
        · have h1 : processSheet ((some w).map convert_date_value) n ws 18 2 =
              convert_date_value w := by
            rw [processSheet_at_18, if_pos ⟨hov, hp⟩]
            rfl
          rw [processSheet_at_18, h1]
          by_cases hp2 : placeholderVal (convert_date_value w) = true
          · rw [if_pos ⟨hov, hp2⟩]
            rfl
          · rw [if_neg (fun hc => hp2 hc.2)]
        · have h1 : processSheet ((some w).map convert_date_value) n ws 18 2 = ws 18 2 := by
            rw [processSheet_at_18, if_neg (fun hc => hp hc.2)]
          rw [processSheet_at_18, h1, if_neg (fun hc => hp hc.2)]
      · have h1 : processSheet ((some w).map convert_date_value) n ws 18 2 = ws 18 2 := by
          rw [processSheet_at_18, if_neg (fun hc => hov hc.1)]
        rw [processSheet_at_18, h1, if_neg (fun hc => hov hc.1)]
  rw [processSheet_other h7 h14 h15 h16 h17 h18,
    processSheet_other h7 h14 h15 h16 h17 h18]

/-! Alert-scan replay lemmas. -/
theorem replay_append (a b : List AlertEvent) (st : Alerts) :
    replay (a ++ b) st = replay b (replay a st) := by
  unfold replay
  exact List.foldl_append _ _ a b

theorem cellAlertStep_eq_replay (g : Nat → Nat → CellValue) (rc : Nat × Nat) (st : Alerts) :
    cellAlertStep g st rc = replay (cellEvents g rc) st := by
  unfold cellAlertStep cellEvents
  by_cases ht : pyTruthy (g rc.1 rc.2) = true
  · rw [if_pos ht, if_pos ht]
    dsimp only
    rw [replay_append]
    by_cases h1 : (strContains (pyLower (pyStrip (pyStr (g rc.1 rc.2)))) "summary" &&
        !strContains (pyLower (pyStrip (pyStr (g rc.1 rc.2)))) "performance") = true
    · rw [if_pos h1, if_pos h1]
      by_cases h2 : (strContains (pyLower (pyStrip (pyStr (g rc.1 rc.2)))) "overall" &&
          strContains (pyLower (pyStrip (pyStr (g rc.1 rc.2)))) "comment") = true
      · rw [if_pos h2, if_pos h2]
        cases hf : firstRight g rc.1 rc.2 with
        | none => simp [replay, applyEvent]
        | some t =>
          by_cases hr : redYellow t = true <;>
            simp [replay, applyEvent, hr, eventMsg]
      · rw [if_neg h2, if_neg h2]
        cases hf : firstRight g rc.1 rc.2 with
        | none => simp [replay, applyEvent]
        | some t =>
          by_cases hr : redYellow t = true <;>
            simp [replay, applyEvent, hr, eventMsg]
    · rw [if_neg h1, if_neg h1]
      by_cases h2 : (strContains (pyLower (pyStrip (pyStr (g rc.1 rc.2)))) "overall" &&
          strContains (pyLower (pyStrip (pyStr (g rc.1 rc.2)))) "comment") = true
      · rw [if_pos h2, if_pos h2]
        cases hf : firstRight g rc.1 rc.2 with
        | none => simp [replay, applyEvent]
        | some t =>
          by_cases hr : redYellow t = true <;>
            simp [replay, applyEvent, hr, eventMsg]
      · rw [if_neg h2, if_neg h2]
        simp [replay]
  · rw [if_neg ht, if_neg ht]
    rfl

theorem foldl_replay {α : Type} (f : α → List AlertEvent) :
    ∀ (l : List α) (st : Alerts),
      l.foldl (fun s x => replay (f x) s) st = replay (l.flatMap f) st := by
  intro l
  induction l with
  | nil => intro st; rfl
  | cons a t ih =>
    intro st
    rw [List.foldl_cons, List.flatMap_cons, replay_append, ih]

theorem check_eq_replay (wb : List Ws) :
    check_for_alerts wb = replay (wbEvents wb) initAlerts := by
  unfold check_for_alerts wbEvents
  have hsheet : ∀ (ws : Ws) (st : Alerts),
      (alertCoords ws).foldl (cellAlertStep ws.grid) st =
        replay ((alertCoords ws).flatMap (cellEvents ws.grid)) st := by
    intro ws st
    have : (alertCoords ws).foldl (cellAlertStep ws.grid) st =
        (alertCoords ws).foldl (fun s x => replay (cellEvents ws.grid x) s) st := by
      congr 1
      funext s x
      exact cellAlertStep_eq_replay ws.grid x s
    rw [this, foldl_replay]
  have : ∀ (l : List Ws) (st : Alerts),
      l.foldl (fun st ws => (alertCoords ws).foldl (cellAlertStep ws.grid) st) st =
        replay (l.flatMap fun ws => (alertCoords ws).flatMap (cellEvents ws.grid)) st := by
    intro l
    induction l with
    | nil => intro st; rfl
    | cons a t ih =>
      intro st
      rw [List.foldl_cons, List.flatMap_cons, replay_append, ih, hsheet]
  exact this wb initAlerts


theorem replay_summary_last (evs : List AlertEvent) (st : Alerts) :
    (replay evs st).summary =
      match (summaryTexts evs).getLast? with
      | some t => some t
      | Option.none => st.summary := by
  induction evs using List.reverseRecOn with
  | nil => rfl
  | append_singleton l e ih =>
    rw [replay_append]
    cases e with
    | summaryHit t =>
      have hst : summaryTexts (l ++ [AlertEvent.summaryHit t]) = summaryTexts l ++ [t] := by
        unfold summaryTexts
        rw [List.filterMap_append]
        rfl
      rw [hst, List.getLast?_concat]
      show (applyEvent (replay l st) (AlertEvent.summaryHit t)).summary = some t
      unfold applyEvent
      by_cases hr : redYellow t = true <;> simp [hr]
    | overallHit t =>
      have hst : summaryTexts (l ++ [AlertEvent.overallHit t]) = summaryTexts l := by
        unfold summaryTexts
        rw [List.filterMap_append]
        simp
      rw [hst]
      have hkeep : (applyEvent (replay l st) (AlertEvent.overallHit t)).summary =
          (replay l st).summary := by
        unfold applyEvent
        by_cases hr : redYellow t = true <;> simp [hr]
      show (applyEvent (replay l st) (AlertEvent.overallHit t)).summary = _
      rw [hkeep, ih]

theorem replay_overall_last (evs : List AlertEvent) (st : Alerts) :
    (replay evs st).overall_comments =
      match (overallTexts evs).getLast? with
      | some t => some t
      | Option.none => st.overall_comments := by
  induction evs using List.reverseRecOn with
  | nil => rfl
  | append_singleton l e ih =>
    rw [replay_append]
    cases e with
    | overallHit t =>
      have hst : overallTexts (l ++ [AlertEvent.overallHit t]) = overallTexts l ++ [t] := by
        unfold overallTexts
        rw [List.filterMap_append]
        rfl
      rw [hst, List.getLast?_concat]
      show (applyEvent (replay l st) (AlertEvent.overallHit t)).overall_comments = some t
      unfold applyEvent
      by_cases hr : redYellow t = true <;> simp [hr]
    | summaryHit t =>
      have hst : overallTexts (l ++ [AlertEvent.summaryHit t]) = overallTexts l := by
        unfold overallTexts
        rw [List.filterMap_append]
        simp
      rw [hst]
      have hkeep : (applyEvent (replay l st) (AlertEvent.summaryHit t)).overall_comments =
          (replay l st).overall_comments := by
        unfold applyEvent
        by_cases hr : redYellow t = true <;> simp [hr]
      show (applyEvent (replay l st) (AlertEvent.summaryHit t)).overall_comments = _
      rw [hkeep, ih]

theorem applyEvent_has_alerts (st : Alerts) (e : AlertEvent) :
    (applyEvent st e).has_alerts = (st.has_alerts || redYellow (eventText e)) := by
  cases e <;> unfold applyEvent <;> rename_i t <;>
    by_cases hr : redYellow t = true <;> simp [hr, eventText]

theorem applyEvent_details (st : Alerts) (e : AlertEvent) :
    (applyEvent st e).alert_details =
      st.alert_details ++ (if redYellow (eventText e) = true then [eventMsg e] else []) := by
  cases e <;> unfold applyEvent <;> rename_i t <;>
    by_cases hr : redYellow t = true <;> simp [hr, eventText, eventMsg]

theorem replay_has_alerts (evs : List AlertEvent) (st : Alerts) :
    (replay evs st).has_alerts =
      (st.has_alerts || evs.any fun e => redYellow (eventText e)) := by
  induction evs generalizing st with
  | nil => simp [replay]
  | cons e t ih =>
    show (replay t (applyEvent st e)).has_alerts = _
    rw [ih, applyEvent_has_alerts, List.any_cons, Bool.or_assoc]

theorem replay_details (evs : List AlertEvent) (st : Alerts) :
    (replay evs st).alert_details =
      st.alert_details ++ ((evs.filter fun e => redYellow (eventText e)).map eventMsg) := by
  induction evs generalizing st with
  | nil => simp [replay]
  | cons e t ih =>
    show (replay t (applyEvent st e)).alert_details = _
    rw [ih, applyEvent_details, List.filter_cons]
    by_cases hr : redYellow (eventText e) = true
    · rw [if_pos hr, if_pos hr]
      simp
    · rw [if_neg hr, if_neg hr]
      simp

/-! Benchmark/vintage lookup lemmas. -/
theorem vintageScanStep_fst (g : Nat → Nat → CellValue) (st : Option Nat × Option Nat)
    (a : Nat × Nat) :
    (vintageScanStep g st a).1 =
      if benchLabel g a = true ∧ st.1 = Option.none then some a.1 else st.1 := by
  unfold vintageScanStep benchLabel
  by_cases ht : pyTruthy (g a.1 a.2) = true
  · rw [if_pos ht]
    dsimp only
    cases hst : st.1 with
    | some x => rw [if_neg (by simp), if_neg (by simp)]
    | none =>
      by_cases hb : (pyLower (pyStrip (pyStr (g a.1 a.2))) == "benchmark") = true
      · rw [if_pos (by simp [hb]), if_pos ⟨by simp [ht, hb], rfl⟩]
      · rw [Bool.not_eq_true] at hb
        rw [if_neg (by simp [hb]), if_neg (by simp [hb])]
  · rw [if_neg ht]
    rw [Bool.not_eq_true] at ht
    rw [if_neg (by simp [ht])]

theorem vintageScanStep_snd (g : Nat → Nat → CellValue) (st : Option Nat × Option Nat)
    (a : Nat × Nat) :
    (vintageScanStep g st a).2 =
      if vintLabel g a = true ∧ st.2 = Option.none then some a.2 else st.2 := by
  unfold vintageScanStep vintLabel
  by_cases ht : pyTruthy (g a.1 a.2) = true
  · rw [if_pos ht]
    dsimp only
    cases hst : st.2 with
    | some x => rw [if_neg (by simp), if_neg (by simp)]
    | none =>
      by_cases hb : strContains (pyLower (pyStrip (pyStr (g a.1 a.2)))) "vintage" = true
      · rw [if_pos (by simp [hb]), if_pos ⟨by simp [ht, hb], rfl⟩]
      · rw [Bool.not_eq_true] at hb
        rw [if_neg (by simp [hb]), if_neg (by simp [hb])]
  · rw [if_neg ht]
    rw [Bool.not_eq_true] at ht
    rw [if_neg (by simp [ht])]

theorem vintageFold_fst (g : Nat → Nat → CellValue) :
    ∀ (l : List (Nat × Nat)) (st : Option Nat × Option Nat),
      (l.foldl (vintageScanStep g) st).1 =
        match st.1 with
        | some x => some x
        | Option.none => (l.find? (benchLabel g)).map Prod.fst := by
  intro l
  induction l with
  | nil =>
    intro st
    cases h : st.1 <;> simp [h]
  | cons a t ih =>
    intro st
    rw [List.foldl_cons, ih, List.find?_cons]
    cases hst : st.1 with
    | some x =>
      rw [vintageScanStep_fst, hst, if_neg (by simp)]
    | none =>
      by_cases hb : benchLabel g a = true
      · rw [vintageScanStep_fst, hst, if_pos ⟨hb, rfl⟩, hb]
        rfl
      · rw [Bool.not_eq_true] at hb
        rw [vintageScanStep_fst, hst, if_neg (by simp [hb]), hb]

theorem vintageFold_snd (g : Nat → Nat → CellValue) :
    ∀ (l : List (Nat × Nat)) (st : Option Nat × Option Nat),
      (l.foldl (vintageScanStep g) st).2 =
        match st.2 with
        | some x => some x
        | Option.none => (l.find? (vintLabel g)).map Prod.snd := by
  intro l
  induction l with
  | nil =>
    intro st
    cases h : st.2 <;> simp [h]
  | cons a t ih =>
    intro st
    rw [List.foldl_cons, ih, List.find?_cons]
    cases hst : st.2 with
    | some x =>
      rw [vintageScanStep_snd, hst, if_neg (by simp)]
    | none =>
      by_cases hb : vintLabel g a = true
      · rw [vintageScanStep_snd, hst, if_pos ⟨hb, rfl⟩, hb]
        rfl
      · rw [Bool.not_eq_true] at hb
        rw [vintageScanStep_snd, hst, if_neg (by simp [hb]), hb]

theorem findVintage_eq_spec (ws : Ws) : findBenchmarkVintage ws = findVintageSpec ws := by
  unfold findBenchmarkVintage findVintageSpec
  dsimp only
  rw [vintageFold_fst, vintageFold_snd]

/-! Model/segment extraction lemmas. -/
theorem extractStepM_locked {g : Nat → Nat → CellValue} {kws : List String}
    {st : Option String} (h : optFalsy st = false) (a : Nat × Nat) :
    extractStepM g kws st a = st := by
  unfold extractStepM
  by_cases ht : pyTruthy (g a.1 a.2) = true
  · rw [if_pos ht]
    dsimp only
    rw [if_neg (by simp [h])]
  · rw [if_neg ht]

theorem extractFold_locked {g : Nat → Nat → CellValue} {kws : List String} :
    ∀ (l : List (Nat × Nat)) {st : Option String}, optFalsy st = false →
      l.foldl (extractStepM g kws) st = st := by
  intro l
  induction l with
  | nil => intro st _; rfl
  | cons a t ih =>
    intro st h
    rw [List.foldl_cons, extractStepM_locked h, ih h]

theorem extractStepM_attempt_none {g : Nat → Nat → CellValue} {kws : List String}
    {st : Option String} {a : Nat × Nat} (hst : optFalsy st = true)
    (ha : attemptAt g kws a = Option.none) : extractStepM g kws st a = st := by
  unfold extractStepM
  unfold attemptAt at ha
  by_cases ht : pyTruthy (g a.1 a.2) = true
  · rw [if_pos ht]
    dsimp only
    by_cases hk : kwMatch kws (pyStrip (pyStr (g a.1 a.2))) = true
    · rw [if_pos (by simp [hst, hk])]
      rw [if_pos (by simp [ht, hk])] at ha
      by_cases hc : (pyStrip (pyStr (g a.1 a.2))).data.contains ':' = true
      · rw [if_pos hc] at ha
        exact absurd ha (by simp)
      · rw [if_neg hc] at ha
        rw [if_neg hc]
        by_cases hr : pyTruthy (g a.1 (a.2 + 1)) = true
        · rw [if_pos hr] at ha
          exact absurd ha (by simp)
        · rw [if_neg hr]
    · rw [Bool.not_eq_true] at hk
      rw [if_neg (by simp [hk])]
  · rw [if_neg ht]

theorem extractStepM_attempt_some {g : Nat → Nat → CellValue} {kws : List String}
    {st : Option String} {a : Nat × Nat} {v : String} (hst : optFalsy st = true)
    (ha : attemptAt g kws a = some v) : extractStepM g kws st a = some v := by
  unfold extractStepM
  unfold attemptAt at ha
  by_cases ht : pyTruthy (g a.1 a.2) = true
  · rw [if_pos ht]
    dsimp only
    by_cases hk : kwMatch kws (pyStrip (pyStr (g a.1 a.2))) = true
    · rw [if_pos (by simp [hst, hk])]
      rw [if_pos (by simp [ht, hk])] at ha
      by_cases hc : (pyStrip (pyStr (g a.1 a.2))).data.contains ':' = true
      · rw [if_pos hc] at ha
        rw [if_pos hc]
        exact ha
      · rw [if_neg hc] at ha
        rw [if_neg hc]
        by_cases hr : pyTruthy (g a.1 (a.2 + 1)) = true
        · rw [if_pos hr] at ha
          rw [if_pos hr]
          exact ha
        · rw [if_neg hr] at ha
          exact absurd ha (by simp)
    · rw [Bool.not_eq_true] at hk
      rw [if_neg (by simp [hk])] at ha
      exact absurd ha (by simp)
  · rw [Bool.not_eq_true] at ht
    rw [if_neg (by simp [ht])] at ha
    exact absurd ha (by simp)

theorem extractFold_eq_rawResult (g : Nat → Nat → CellValue) (kws : List String) :
    ∀ (coords : List (Nat × Nat)) (st : Option String), optFalsy st = true →
      coords.foldl (extractStepM g kws) st = rawResult (attemptList g kws coords) st := by
  intro coords
  induction coords with
  | nil => intro st _; rfl
  | cons a t ih =>
    intro st h
    rw [List.foldl_cons]
    unfold attemptList
    rw [List.filterMap_cons]
    cases ha : attemptAt g kws a with
    | none =>
      rw [extractStepM_attempt_none h ha]
      exact ih st h
    | some v =>
      rw [extractStepM_attempt_some h ha]
      by_cases hv : v = ""
      · subst hv
        rw [show rawResult ("" :: List.filterMap (attemptAt g kws) t) st =
          rawResult (List.filterMap (attemptAt g kws) t) (some "") from rfl]
        exact ih (some "") rfl
      · rw [extractFold_locked t (by simp [optFalsy, hv])]
        unfold rawResult
        rw [if_neg (by simpa using hv)]


theorem extractFold_fst (g : Nat → Nat → CellValue) (kwsM kwsS : List String) :
    ∀ (l : List (Nat × Nat)) (st : Option String × Option String),
      (l.foldl (extractStep g kwsM kwsS) st).1 = l.foldl (extractStepM g kwsM) st.1 := by
  intro l
  induction l with
  | nil => intro st; rfl
  | cons a t ih =>
    intro st
    rw [List.foldl_cons, List.foldl_cons, ih]
    rfl

theorem extractFold_snd (g : Nat → Nat → CellValue) (kwsM kwsS : List String) :
    ∀ (l : List (Nat × Nat)) (st : Option String × Option String),
      (l.foldl (extractStep g kwsM kwsS) st).2 = l.foldl (extractStepM g kwsS) st.2 := by
  intro l
  induction l with
  | nil => intro st; rfl
  | cons a t ih =>
    intro st
    rw [List.foldl_cons, List.foldl_cons, ih]
    rfl

theorem extract_eq_spec (ws : Ws) :
    extract_model_and_segment ws =
      (extractPost (rawResult
        (attemptList ws.grid ["model", "vehicle", "car"] (extractCoords ws)) Option.none),
       extractPost (rawResult
        (attemptList ws.grid ["segment", "category", "class"] (extractCoords ws)) Option.none)) := by
  unfold extract_model_and_segment
  dsimp only
  have h1 := extractFold_fst ws.grid ["model", "vehicle", "car"] ["segment", "category", "class"]
    (extractCoords ws) (Option.none, Option.none)
  have h2 := extractFold_snd ws.grid ["model", "vehicle", "car"] ["segment", "category", "class"]
    (extractCoords ws) (Option.none, Option.none)
  rw [h1, h2, extractFold_eq_rawResult ws.grid _ (extractCoords ws) Option.none rfl,
    extractFold_eq_rawResult ws.grid _ (extractCoords ws) Option.none rfl]

/-! Date-token and conversion characterization lemmas. -/
theorem all_digit_no_dot {l : List Char} (h : l.contains '.' = true) :
    (l.all fun c => c.isDigit) = false := by
  have hm : '.' ∈ l := List.elem_iff.mp h
  by_contra hc
  rw [Bool.not_eq_false] at hc
  have := List.all_eq_true.mp hc '.' hm
  exact absurd this (by decide)

theorem no_dot_takeWhile {l : List Char} (h : l.contains '.' = false) :
    l.takeWhile (fun c => c != '.') = l := by
  apply takeWhile_all_true
  intro c hc
  have hne : c ≠ '.' := by
    intro he
    subst he
    have h2 : List.elem '.' l = true := List.elem_iff.mpr hc
    rw [show l.contains '.' = List.elem '.' l from rfl, h2] at h
    exact absurd h (by simp)
  simpa using hne

theorem chain_eq_strict (S : String) :
    (if S.data.length = 6 ∧ (S.data.all fun c => c.isDigit) = true then
       if 1900 ≤ digitsVal (S.data.take 4) ∧ digitsVal (S.data.take 4) ≤ 2100 ∧
          1 ≤ digitsVal (S.data.drop 4) ∧ digitsVal (S.data.drop 4) ≤ 12 then true else false
     else false) = isStrictDateToken S := by
  unfold isStrictDateToken
  split_ifs with h1 h2
  · symm
    simp only [Bool.and_eq_true, beq_iff_eq, decide_eq_true_eq]
    exact ⟨⟨⟨⟨⟨h1.1, h1.2⟩, h2.1⟩, h2.2.1⟩, h2.2.2.1⟩, h2.2.2.2⟩
  · symm
    rw [Bool.eq_false_iff]
    intro habs
    simp only [Bool.and_eq_true, beq_iff_eq, decide_eq_true_eq] at habs
    exact h2 ⟨habs.1.1.1.2, habs.1.1.2, habs.1.2, habs.2⟩
  · symm
    rw [Bool.eq_false_iff]
    intro habs
    simp only [Bool.and_eq_true, beq_iff_eq, decide_eq_true_eq] at habs
    exact h1 ⟨habs.1.1.1.1.1, habs.1.1.1.1.2⟩

theorem idf_eq_dateTokenCheck (v : CellValue) : is_date_format v = dateTokenCheck v := by
  unfold is_date_format dateTokenCheck
  dsimp only
  by_cases hc : (stripChars (pyStr v).data).contains '.' = true
  · rw [if_pos hc]
    exact chain_eq_strict ⟨(stripChars (pyStr v).data).takeWhile fun c => c != '.'⟩
  · have hcf : (stripChars (pyStr v).data).contains '.' = false := by
      rwa [Bool.not_eq_true] at hc
    rw [if_neg hc, no_dot_takeWhile hcf]
    exact chain_eq_strict ⟨stripChars (pyStr v).data⟩


theorem strict_strptime {S : String} (h : isStrictDateToken S = true) :
    strptimeYYYYMM S = some (digitsVal (S.data.take 4), digitsVal (S.data.drop 4)) := by
  simp only [isStrictDateToken, Bool.and_eq_true, beq_iff_eq, decide_eq_true_eq] at h
  obtain ⟨⟨⟨⟨⟨hl, ha⟩, h3⟩, h4⟩, h5⟩, h6⟩ := h
  unfold strptimeYYYYMM
  dsimp only
  rw [if_pos ⟨hl, ha⟩, if_pos ⟨h5, h6, by omega⟩]

theorem strict_false_of_dot {S : String} (hc : S.data.contains '.' = true) :
    isStrictDateToken S = false := by
  unfold isStrictDateToken
  rw [all_digit_no_dot hc]
  simp

theorem strptime_none_of_dot {s : String} (hc : (pyStrip s).data.contains '.' = true) :
    strptimeYYYYMM (pyStrip s) = Option.none := by
  unfold strptimeYYYYMM
  dsimp only
  rw [if_neg]
  rintro ⟨-, hall⟩
  rw [all_digit_no_dot hc] at hall
  exact absurd hall (by simp)

theorem idf_str_no_dot {s : String} (hc : (pyStrip s).data.contains '.' = false) :
    is_date_format (.str s) = isStrictDateToken (pyStrip s) := by
  unfold is_date_format
  dsimp only
  rw [show pyStr (.str s) = s from rfl]
  rw [show stripChars s.data = (pyStrip s).data from rfl]
  rw [show (if (pyStrip s).data.contains '.' = true
      then List.takeWhile (fun c => c != '.') (pyStrip s).data
      else (pyStrip s).data) = (pyStrip s).data from if_neg (by rw [hc]; simp)]
  exact chain_eq_strict (pyStrip s)

theorem idf_int_strict (n : Int) :
    is_date_format (.int n) = isStrictDateToken (pyIntRepr n) := by
  unfold is_date_format
  dsimp only
  rw [show pyStr (.int n) = pyIntRepr n from rfl, stripChars_pyIntRepr]
  rw [show (if (pyIntRepr n).data.contains '.' = true
      then List.takeWhile (fun c => c != '.') (pyIntRepr n).data
      else (pyIntRepr n).data) = (pyIntRepr n).data from
    if_neg (by rw [pyIntRepr_no_dot n]; simp)]
  exact chain_eq_strict (pyIntRepr n)

theorem convSpec_str (s : String) : convSpec (.str s) =
    if isStrictDateToken (pyStrip s) = true then tokenDisplay (pyStrip s) else .str s := rfl

theorem convSpec_int (n : Int) : convSpec (.int n) =
    if isStrictDateToken (pyIntRepr n) = true then tokenDisplay (pyIntRepr n) else .int n := rfl

theorem convSpec_dec (ip : Int) (frac : String) : convSpec (.dec ip frac) =
    if isStrictDateToken (pyIntRepr ip) = true then tokenDisplay (pyIntRepr ip)
    else .dec ip frac := rfl

theorem conv_str_unfold (s : String) : convert_date_value (.str s) =
    if is_date_format (.str s) = true then
      (match strptimeYYYYMM (pyStrip s) with
       | some (y, m) => CellValue.str (formatMonYY y m)
       | Option.none => .str s)
    else .str s := rfl

theorem conv_int_unfold (n : Int) : convert_date_value (.int n) =
    if is_date_format (.int n) = true then
      (match strptimeYYYYMM (pyIntRepr n) with
       | some (y, m) => CellValue.str (formatMonYY y m)
       | Option.none => .int n)
    else .int n := rfl

theorem conv_dec_unfold (ip : Int) (frac : String) : convert_date_value (.dec ip frac) =
    if is_date_format (.int ip) = true then
      (match strptimeYYYYMM (pyIntRepr ip) with
       | some (y, m) => CellValue.str (formatMonYY y m)
       | Option.none => .dec ip frac)
    else .dec ip frac := rfl

theorem convert_eq_spec (v : CellValue) : convert_date_value v = convSpec v := by
  cases v with
  | none => rfl
  | str s =>
    rw [conv_str_unfold, convSpec_str]
    by_cases hc : (pyStrip s).data.contains '.' = true
    · by_cases hidf : is_date_format (.str s) = true
      · rw [if_pos hidf, strptime_none_of_dot hc, strict_false_of_dot hc, if_neg (by simp)]
      · rw [if_neg hidf, strict_false_of_dot hc, if_neg (by simp)]
    · have hcf : (pyStrip s).data.contains '.' = false := by rwa [Bool.not_eq_true] at hc
      rw [idf_str_no_dot hcf]
      by_cases hst : isStrictDateToken (pyStrip s) = true
      · rw [if_pos hst, if_pos hst, strict_strptime hst]
        rfl
      · rw [if_neg hst, if_neg hst]
  | int n =>
    rw [conv_int_unfold, convSpec_int, idf_int_strict n]
    by_cases hst : isStrictDateToken (pyIntRepr n) = true
    · rw [if_pos hst, if_pos hst, strict_strptime hst]
      rfl
    · rw [if_neg hst, if_neg hst]
  | dec ip frac =>
    rw [conv_dec_unfold, convSpec_dec, idf_int_strict ip]
    by_cases hst : isStrictDateToken (pyIntRepr ip) = true
    · rw [if_pos hst, if_pos hst, strict_strptime hst]
      rfl
    · rw [if_neg hst, if_neg hst]

theorem summaryTexts_map_overall (l : List String) :
    summaryTexts (l.map AlertEvent.overallHit) = [] := by
  induction l with
  | nil => rfl
  | cons a t ih =>
    unfold summaryTexts at ih ⊢
    rw [List.map_cons, List.filterMap_cons]
    exact ih

/-! Claim theorems. -/

/-- C1 counterexample: the tag 30+DPD @ 0 DOB matches the pattern with
DPD 30 greater than zero, yet calculate_approved_month returns None (the
Python truthiness guard rejects DOB 0) instead of the claimed run month
minus floor(0/30)+1 = 1 month, that is 202402. -/
theorem approvedMonth_dob_zero_cex :
    parse_tag "30+DPD @ 0 DOB" = some (30, 0) ∧
    calculate_approved_month "202403" "30+DPD @ 0 DOB" = Except.ok Option.none ∧
    (Except.ok (Option.none : Option String) : Except Unit (Option String)) ≠
      Except.ok (some "202402") := by
  refine ⟨by decide, by rfl, by simp⟩

/-- C1 as amended: an unmatched tag yields None, and a matched tag with
both components positive yields the run month minus floor(DOB/DPD)+1
calendar months, provided the run month parses and the subtraction stays
in the representable year range. -/
theorem approvedMonth_amended (run_month tag : String) :
    (parse_tag tag = Option.none →
      calculate_approved_month run_month tag = Except.ok Option.none) ∧
    (∀ dpd dob y m, parse_tag tag = some (dpd, dob) → 0 < dpd → 0 < dob →
      strptimeYYYYMM run_month = some (y, m) →
      dob / dpd + 1 + 12 ≤ y * 12 + (m - 1) →
      calculate_approved_month run_month tag =
        Except.ok (some (formatYYYYMM ((y * 12 + (m - 1) - (dob / dpd + 1)) / 12)
          ((y * 12 + (m - 1) - (dob / dpd + 1)) % 12 + 1)))) := by
  constructor
  · intro h
    unfold calculate_approved_month
    rw [h]
  · intro dpd dob y m hp hd1 hd2 hst hr
    unfold calculate_approved_month
    rw [hp]
    dsimp only
    rw [if_pos ⟨by omega, by omega⟩, hst]
    dsimp only
    rw [if_neg (by omega)]

/-- C1 witness: the specification's own example evaluates as amended. -/
theorem approvedMonth_amended_witness :
    parse_tag "30+DPD @ 75 DOB" = some (30, 75) ∧
    calculate_approved_month "202403" "30+DPD @ 75 DOB" = Except.ok (some "202312") := by
  constructor
  · decide
  · have h := (approvedMonth_amended "202403" "30+DPD @ 75 DOB").2 30 75 2024 3 (by decide)
      (by decide) (by decide) (by decide) (by decide)
    rw [h]
    rfl

/-- C2 counterexample: with B14 empty and B17 holding a text, the pass
leaves B17 with its prior text while B14 stays empty, so B17 and B14
differ after normalization. -/
theorem b17_invariant_cex :
    b17CexSheet 14 2 = CellValue.none ∧
    processSheet Option.none "Data" b17CexSheet 17 2 = CellValue.str "hello" ∧
    processSheet Option.none "Data" b17CexSheet 14 2 = CellValue.none ∧
    CellValue.str "hello" ≠ CellValue.none := by
  refine ⟨by decide, by decide, by decide, by decide⟩

/-- C2 as amended: whenever B14 is non-empty before the pass, the pass
leaves B17 equal to B14. -/
theorem b17_eq_b14_of_b14_nonempty (v : Option CellValue) (n : String) (ws : Sheet)
    (h : ws 14 2 ≠ CellValue.none) :
    processSheet v n ws 17 2 = processSheet v n ws 14 2 :=
  b17_eq_b14_aux v n ws h

/-- C2 witness: the invariant at a concrete sheet with B14 = 202403. -/
theorem b17_eq_b14_witness :
    processSheet Option.none "Data" b17WitnessSheet 17 2 =
      processSheet Option.none "Data" b17WitnessSheet 14 2 :=
  b17_eq_b14_of_b14_nonempty Option.none "Data" b17WitnessSheet (by decide)

/-- C3 counterexample: a summary label in column 10 followed by Red lies
inside the region rows 1..min(50, maxRow), columns 1..min(10, maxColumn)
that the claim describes, yet the scan (which stops at column
min(9, maxColumn)) never sees it: the result is the fresh report. -/
theorem alertScan_bounds_cex :
    strContains (pyLower (pyStrip (pyStr (alertCexGrid 1 10)))) "summary" = true ∧
    strContains (pyLower (pyStrip (pyStr (alertCexGrid 1 10)))) "performance" = false ∧
    firstRight alertCexGrid 1 10 = some "Red" ∧
    redYellow "Red" = true ∧
    (10 ≤ min 10 alertCexWs.maxCol ∧ 1 ≤ min 50 alertCexWs.maxRow) ∧
    check_for_alerts [alertCexWs] = initAlerts ∧
    (check_for_alerts [alertCexWs]).summary ≠ some "Red" ∧
    (check_for_alerts [alertCexWs]).has_alerts = false := by
  refine ⟨by decide, by decide, by decide, by decide, by decide, by decide, by decide,
    by decide⟩

/-- C3 as amended: the scan visits rows 1..min(49, maxRow) and columns
1..min(9, maxColumn) of every sheet in order; its result is exactly the
replay of the extraction events of that region, where a summary label
(containing "summary" but not "performance") records the first non-blank
cell of the next four columns as summary and raises the alert flag with a
detail line exactly when that text contains red or yellow; a label
containing "performance" produces no summary extraction. -/
theorem alertScan_amended (wb : List Ws) :
    check_for_alerts wb = replay (wbEvents wb) initAlerts ∧
    (check_for_alerts wb).has_alerts =
      ((wbEvents wb).any fun e => redYellow (eventText e)) ∧
    (check_for_alerts wb).alert_details =
      (((wbEvents wb).filter fun e => redYellow (eventText e)).map eventMsg) ∧
    ∀ (g : Nat → Nat → CellValue) (rc : Nat × Nat),
      strContains (pyLower (pyStrip (pyStr (g rc.1 rc.2)))) "performance" = true →
      summaryTexts (cellEvents g rc) = [] := by
  refine ⟨check_eq_replay wb, ?_, ?_, ?_⟩
  · rw [check_eq_replay, replay_has_alerts]
    simp [initAlerts]
  · rw [check_eq_replay, replay_details]
    simp [initAlerts]
  · intro g rc hp
    unfold cellEvents
    by_cases ht : pyTruthy (g rc.1 rc.2) = true
    · rw [if_pos ht]
      dsimp only
      rw [show (strContains (pyLower (pyStrip (pyStr (g rc.1 rc.2)))) "summary" &&
          !strContains (pyLower (pyStrip (pyStr (g rc.1 rc.2)))) "performance") = false from by
        rw [hp]
        simp]
      rw [if_neg (by simp), List.nil_append]
      by_cases h2 : (strContains (pyLower (pyStrip (pyStr (g rc.1 rc.2)))) "overall" &&
          strContains (pyLower (pyStrip (pyStr (g rc.1 rc.2)))) "comment") = true
      · rw [if_pos h2]
        exact summaryTexts_map_overall _
      · rw [if_neg h2]
        rfl
    · rw [if_neg ht]
      rfl

/-- C3 witness: a Performance Summary label produces no summary event. -/
theorem alertScan_amended_witness :
    strContains (pyLower (pyStrip (pyStr (perfGrid 1 1)))) "performance" = true ∧
    summaryTexts (cellEvents perfGrid (1, 1)) = [] :=
  ⟨by decide, (alertScan_amended []).2.2.2 perfGrid (1, 1) (by decide)⟩

/-- C4 counterexample: the text 202403.5 passes isDateFormat (the
truncating DateToken test) after trimming, yet convert_date_value returns
it unchanged rather than the Mar-24 display form the claim requires. -/
theorem convertDate_dotted_cex :
    is_date_format (CellValue.str "202403.5") = true ∧
    convert_date_value (CellValue.str "202403.5") = CellValue.str "202403.5" ∧
    CellValue.str "202403.5" ≠ CellValue.str "Mar-24" := by
  refine ⟨by decide, by decide, by decide⟩

/-- C4 as amended: convert_date_value is total and equals the
specification map convSpec: trimmed text that is a strict six-digit
YYYYMM token with year 1900-2100 and month 1-12 becomes the Mon-YY
display form, a numeric value whose truncated integer part prints as such
a token does the same, and every other value (including dotted text that
only passes the truncating token test) is returned unchanged. -/
theorem convertDate_amended (v : CellValue) : convert_date_value v = convSpec v :=
  convert_eq_spec v

/-- C5 counterexample: code strips surrounding whitespace before testing,
so a padded token is accepted even though the claimed characterization of
the string form (no trimming) rejects it. -/
theorem isDateFormat_whitespace_cex :
    is_date_format (CellValue.str " 202403 ") = true ∧
    dateTokenLiteral (CellValue.str " 202403 ") = false := by
  refine ⟨by decide, by decide⟩

/-- C5 as amended: is_date_format equals the DateToken test on the
trimmed string form: after stripping surrounding whitespace and
truncating at the first decimal point, the value must be exactly six
digits with year 1900-2100 and month 1-12. -/
theorem isDateFormat_amended (v : CellValue) : is_date_format v = dateTokenCheck v :=
  idf_eq_dateTokenCheck v

/-- C6 counterexample: with A1 = Model: (empty inline value) and A2 =
Model: Sedan(2 spaces)X, the first keyword cell extracts the empty string
but the function keeps scanning and returns the later cell's value; each
space is replaced by its own underscore, giving Sedan__X rather than a
single underscore per whitespace run. -/
theorem extractValue_cex :
    kwMatch ["model", "vehicle", "car"] (pyStrip (pyStr (extractCexGrid 1 1))) = true ∧
    afterLastColon (pyStrip (pyStr (extractCexGrid 1 1))) = "" ∧
    (extract_model_and_segment extractCexWs).1 = some "Sedan__X" ∧
    some "Sedan__X" ≠ some "" ∧ ("Sedan__X" : String) ≠ "Sedan_X" := by
  refine ⟨by decide, by decide, by decide, by decide, by decide⟩

/-- C6 as amended: the search equals the specification scan: row-major
over the bounded region, each keyword cell attempts an extraction (text
after the last colon when a colon is present, else the truthy right
neighbour); the first non-empty attempt wins, an empty attempt records
the empty value and lets the scan continue; a non-empty result is
sanitized by dropping characters other than word characters, whitespace
and hyphens, trimming, and replacing each space with an underscore. -/
theorem extractValue_amended (ws : Ws) :
    extract_model_and_segment ws =
      (extractPost (rawResult
        (attemptList ws.grid ["model", "vehicle", "car"] (extractCoords ws)) Option.none),
       extractPost (rawResult
        (attemptList ws.grid ["segment", "category", "class"] (extractCoords ws))
        Option.none)) :=
  extract_eq_spec ws

/-- C7: the per-worksheet pass is idempotent.  The vintage parameter is
written as the conversion image an actual run supplies (the program
derives it through convert_date_value, or passes none). -/
theorem propagation_idempotent (vs : Option CellValue) (n : String) (ws : Sheet) :
    processSheet (vs.map convert_date_value) n
        (processSheet (vs.map convert_date_value) n ws) =
      processSheet (vs.map convert_date_value) n ws :=
  propagation_idem_aux vs n ws

/-- C8: the summary and overall-comments fields hold the text of the last
extraction event in scan order, so a later sheet's match overwrites an
earlier one. -/
theorem alertScan_last_match_wins (wb : List Ws) :
    (∀ l t, summaryTexts (wbEvents wb) = l ++ [t] →
      (check_for_alerts wb).summary = some t) ∧
    (∀ l t, overallTexts (wbEvents wb) = l ++ [t] →
      (check_for_alerts wb).overall_comments = some t) := by
  constructor
  · intro l t h
    rw [check_eq_replay, replay_summary_last, h, List.getLast?_concat]
  · intro l t h
    rw [check_eq_replay, replay_overall_last, h, List.getLast?_concat]

/-- C8 witness: in a two-sheet workbook with summary matches Red one then
Yellow two, the report keeps the later sheet's text. -/
theorem alertScan_last_match_wins_witness :
    summaryTexts (wbEvents lastWinsWb) = ["Red one"] ++ ["Yellow two"] ∧
    (check_for_alerts lastWinsWb).summary = some "Yellow two" :=
  ⟨by decide, (alertScan_last_match_wins lastWinsWb).1 ["Red one"] "Yellow two" (by decide)⟩

/-- C9 counterexample: a benchmark label in row 20 of a 25-row Accuracy
sheet lies inside the claimed rows 1..20 but outside the scanned rows
1..min(19, maxRow), so the lookup returns none instead of the converted
cell at (20, vintage column). -/
theorem benchmarkVintage_bounds_cex :
    (pyLower (pyStrip (pyStr (vintageCexGrid 20 1))) == "benchmark") = true ∧
    strContains (pyLower (pyStrip (pyStr (vintageCexGrid 1 2)))) "vintage" = true ∧
    convert_date_value (vintageCexGrid 20 2) = CellValue.str "Jan-24" ∧
    findBenchmarkVintage vintageCexWs = Option.none ∧
    (Option.none : Option CellValue) ≠ some (CellValue.str "Jan-24") := by
  refine ⟨by decide, by decide, by decide, by decide, by decide⟩

/-- C9 as amended: the lookup equals the specification search over rows
and columns 1..min(19, bound): the row of the first cell whose trimmed
lowercase text equals benchmark, the column of the first cell containing
vintage, and, when both exist and the intersection cell is non-empty, its
converted value. -/
theorem benchmarkVintage_amended (ws : Ws) :
    findBenchmarkVintage ws = findVintageSpec ws :=
  findVintage_eq_spec ws

/-- C10: a tag whose DPD component parses as zero makes
calculate_approved_month return None through the truthiness guard; the
division by DPD is never reached, so no division error can occur. -/
theorem dpd_zero_returns_none (run_month tag : String) (dob : Nat)
    (h : parse_tag tag = some (0, dob)) :
    calculate_approved_month run_month tag = Except.ok Option.none := by
  unfold calculate_approved_month
  rw [h]
  dsimp only
  rw [if_neg (by rintro ⟨h0, -⟩; exact h0 rfl)]

/-- C10 witness: the guard fires on the concrete tag 0+DPD @ 75 DOB. -/
theorem dpd_zero_witness :
    parse_tag "0+DPD @ 75 DOB" = some (0, 75) ∧
    calculate_approved_month "202403" "0+DPD @ 75 DOB" = Except.ok Option.none :=
  ⟨by decide, dpd_zero_returns_none "202403" "0+DPD @ 75 DOB" 75 (by decide)⟩

end Report
